import Mathlib

/-!
# Hex editor (`src/main.cpp`): shallow embedding and verified properties

The byte buffer `state.data` (a `std::vector<char>`) is a `List Nat` of byte
values `0..255`; a `std::string` is a `List Nat` of character codes.
`size_t` is 64 bits wide: every `size_t` computation that can wrap carries an
explicit `% 2 ^ 64`.  A function that can read outside the buffer (or leave
through an uncaught exception) returns `Option`: `none` stands for the
undefined behaviour / abnormal termination, `some` for a normal return.

The fields `filename` and `status` of `HexEditorState` only feed file I/O and
the status line; they are left out of the state.
-/

namespace Hex

/-! ## Data model -/

/-- The width of `size_t`, as a modulus. -/
def SIZE : Nat := 2 ^ 64

/-- The enum `Platform` (`main.cpp` l.58). -/
inductive Platform where
  | Windows
  | Linux
  | MacOS
  | Unknown
  deriving DecidableEq, Repr

/-- The struct `HexEditorState::PartitionInfo` (`main.cpp` l.38): an inclusive range. -/
structure PartitionInfo where
  start : Nat
  «end» : Nat
  deriving DecidableEq, Repr

/-- The struct `HexEditorState` (`main.cpp` l.17), without `filename` and `status`. -/
structure HexEditorState where
  data : List Nat := []
  cursor_line : Nat := 0
  cursor_col : Nat := 0
  edit_mode : Bool := false
  edit_buffer : List Nat := []
  search_window_open : Bool := false
  search_query : List Nat := []
  search_cursor : Nat := 0
  search_results : List Nat := []
  current_search_result : Nat := 0
  mz_partition : Option PartitionInfo := none
  dos_stub_partition : Option PartitionInfo := none
  pe_partition : Option PartitionInfo := none
  elf_partition : Option PartitionInfo := none
  mach_o_partition : Option PartitionInfo := none
  signuature_partition : Option PartitionInfo := none
  length_chunk_partition : Option PartitionInfo := none
  type_chunk_partition : Option PartitionInfo := none
  data_chunk_partition : Option PartitionInfo := none
  crc_chunk_partition : Option PartitionInfo := none
  deriving DecidableEq, Repr

/-! ## Short-circuit reads of the buffer -/

/-- The test `header[i] == v` on the raw buffer: `none` when `i` is outside it. -/
def byteIs (data : List Nat) (i v : Nat) : Option Bool :=
  (data.get? i).map fun b => b == v

/-- The operator `a && b` of C++: `b` is evaluated only when `a` is true. -/
def sAnd (a b : Option Bool) : Option Bool :=
  a.bind fun x => if x then b else some false

/-- The operator `a || b` of C++: `b` is evaluated only when `a` is false. -/
def sOr (a b : Option Bool) : Option Bool :=
  a.bind fun x => if x then some true else b

/-- The conjunction `header[0] == a && header[1] == b && header[2] == c && header[3] == d`. -/
def magic4 (data : List Nat) (a b c d : Nat) : Option Bool :=
  sAnd (sAnd (sAnd (byteIs data 0 a) (byteIs data 1 b)) (byteIs data 2 c)) (byteIs data 3 d)

/-! ## FormatDetector -/

/-- The function `CheckPlatforms` (`main.cpp` l.62-86). -/
def CheckPlatforms (data : List Nat) : Option Platform := do
  if ← sAnd (byteIs data 0 0x4d) (byteIs data 1 0x5a) then
    return Platform.Windows
  if ← magic4 data 0x7f 0x45 0x4c 0x46 then
    return Platform.Linux
  if ← sOr (sOr (magic4 data 0xca 0xfe 0xba 0xbe) (magic4 data 0xfe 0xed 0xfa 0xce))
        (magic4 data 0xfe 0xed 0xfa 0xcf) then
    return Platform.MacOS
  return Platform.Unknown

/-! ## PartitionBuilder -/

/-- The load `*(const uint32_t*)&state.data[off]` on a little-endian host: `none` when one
of the four bytes is outside the buffer. -/
def readU32 (data : List Nat) (off : Nat) : Option Nat := do
  let b0 ← data.get? off
  let b1 ← data.get? (off + 1)
  let b2 ← data.get? (off + 2)
  let b3 ← data.get? (off + 3)
  return (b0 + 256 * b1 + 65536 * b2 + 16777216 * b3) % 2 ^ 32

/-- The array `png_header` (`main.cpp` l.112). -/
def png_header : List Nat := [0x89, 0x50, 0x4e, 0x47, 0x0d, 0x0a, 0x1a, 0x0a]

/-- The loop of `main.cpp` l.114-119 from index `i` on, `hdr` being `png_header[i..]`: the
final value of `is_png`, or `none` when `state.data[i]` is read outside the buffer. -/
def isPngFrom (data : List Nat) : List Nat → Nat → Option Bool
  | [], _ => some true
  | h :: hs, i =>
    match data.get? i with
    | none => none
    | some b => if b != h then some false else isPngFrom data hs (i + 1)

/-- The Windows branch of `DetermineExecutablePartitions` (`main.cpp` l.92-102). -/
def windowsPartitions (state : HexEditorState) : Option HexEditorState := do
  let file_size := state.data.length
  let state := { state with mz_partition := some ⟨0, 0x3f⟩ }
  if file_size ≥ 0x40 then
    let state := { state with dos_stub_partition := some ⟨0x40, 0⟩ }
    if file_size ≥ 0x3c + 4 then
      let e_lfanew ← readU32 state.data 0x3c
      return { state with
        dos_stub_partition := some ⟨0x40, (e_lfanew + 2 ^ 32 - 1) % 2 ^ 32⟩
        pe_partition := some ⟨e_lfanew, (file_size + SIZE - 1) % SIZE⟩ }
    else return state
  else return state

/-- The PNG branch of `DetermineExecutablePartitions` (`main.cpp` l.120-135), entered when
`is_png` holds. -/
def pngPartitions (state : HexEditorState) : HexEditorState :=
  let file_size := state.data.length
  let state := { state with signuature_partition := some ⟨0, png_header.length - 1⟩ }
  let length_chunk_start := png_header.length
  if file_size ≥ length_chunk_start + 4 then
    let state := { state with
      length_chunk_partition := some ⟨length_chunk_start, length_chunk_start + 3⟩ }
    let type_chunk_start := length_chunk_start + 4
    if file_size ≥ type_chunk_start + 4 then
      let state := { state with
        type_chunk_partition := some ⟨type_chunk_start, type_chunk_start + 3⟩ }
      let data_chunk_start := type_chunk_start + 4
      if file_size ≥ data_chunk_start + 4 then
        { state with
          data_chunk_partition :=
            some ⟨data_chunk_start, (file_size + SIZE - 8 + SIZE - 1) % SIZE⟩
          crc_chunk_partition :=
            some ⟨(file_size + SIZE - 8) % SIZE, (file_size + SIZE - 1) % SIZE⟩ }
      else state
    else state
  else state

/-- The function `DetermineExecutablePartitions` (`main.cpp` l.88-136). -/
def DetermineExecutablePartitions (state : HexEditorState) : Option HexEditorState := do
  let file_size := state.data.length
  let plat ← CheckPlatforms state.data
  let state ← if plat = Platform.Windows then windowsPartitions state else pure state
  let state := if plat = Platform.Linux then
      { state with elf_partition := some ⟨0, (file_size + SIZE - 1) % SIZE⟩ } else state
  let state := if plat = Platform.MacOS then
      { state with mach_o_partition := some ⟨0, (file_size + SIZE - 1) % SIZE⟩ } else state
  let is_png ← isPngFrom state.data png_header 0
  if is_png then return pngPartitions state else return state

/-! ## The C library functions used by the editor -/

/-- The function `std::isspace` in the "C" locale: space, `\t`, `\n`, `\v`, `\f`, `\r`. -/
def isspace (c : Nat) : Bool := c == 32 || (9 ≤ c && c ≤ 13)

/-- The value of a hexadecimal digit, `none` for any other character. -/
def hexVal (c : Nat) : Option Nat :=
  if 48 ≤ c ∧ c ≤ 57 then some (c - 48)
  else if 65 ≤ c ∧ c ≤ 70 then some (c - 55)
  else if 97 ≤ c ∧ c ≤ 102 then some (c - 87)
  else none

/-- The function `std::isxdigit`. -/
def isxdigit (c : Nat) : Bool := (hexVal c).isSome

/-- The function `std::toupper` in the "C" locale. -/
def toupper (c : Nat) : Nat := if 97 ≤ c ∧ c ≤ 122 then c - 32 else c

/-- The number written by a string of hexadecimal digits, most significant first. -/
def hexNumber (ds : List Nat) : Nat :=
  ds.foldl (fun acc c => 16 * acc + (hexVal c).getD 0) 0

/-- The call `std::stoul(str, nullptr, 16)` with a 64-bit `unsigned long`: `strtoul` skips
leading white space, takes an optional sign, an optional `0x`/`0X` (only when a digit
follows it) and the longest run of hexadecimal digits; what follows is ignored.  The result
is `none` when `std::stoul` throws (`std::invalid_argument` when there is no digit,
`std::out_of_range` when the number does not fit). -/
def stoul16 (str : List Nat) : Option Nat :=
  let s := str.dropWhile isspace
  let neg := s.head? == some 45
  let s := if s.head? == some 45 || s.head? == some 43 then s.tail else s
  let s := match s with
    | 48 :: x :: d :: r => if (x == 120 || x == 88) && isxdigit d then d :: r else s
    | _ => s
  let ds := s.takeWhile isxdigit
  if ds.isEmpty then none
  else if hexNumber ds ≥ 2 ^ 64 then none
  else some (if neg then (2 ^ 64 - hexNumber ds) % 2 ^ 64 else hexNumber ds)

/-! ## SearchEngine -/

/-- The decoding loop of `SearchHex` (`main.cpp` l.194-203): each complete 2-character group
`query.substr(i, 2)` goes through `std::stoul`; its value, cut to `unsigned int` and then
to `unsigned char`, is pushed unless `std::stoul` throws.  A last single character is
skipped. -/
def hexQueryBytes : List Nat → List Nat
  | a :: b :: rest =>
    (match stoul16 [a, b] with
      | some byte => [byte % 2 ^ 32 % 256]
      | none => []) ++ hexQueryBytes rest
  | _ => []

/-- The inner loop of the scan (`main.cpp` l.207-212 and l.232-237) at offset `i`, from index
`j` on, `pat` being the pattern from `j` on: the final value of `match`, or `none` when
`state.data[i + j]` is read outside the buffer. -/
def matchAt (data : List Nat) (i : Nat) : List Nat → Nat → Option Bool
  | [], _ => some true
  | q :: qs, j =>
    match data.get? ((i + j) % SIZE) with
    | none => none
    | some b => if b != q then some false else matchAt data i qs (j + 1)

/-- The outer loop `for (size_t i = ...; i <= bound; ++i)` of the scan (`main.cpp` l.205-216
and l.230-241) from `i` on, with the results pushed so far.  The first argument bounds the
number of evaluations of the loop condition: the loop leaves within `2 ^ 64` of them or
never does, and `none` is returned for a loop that does not leave, as for a read outside
the buffer. -/
def scanLoop (data pat : List Nat) (bound : Nat) : Nat → Nat → List Nat → Option (List Nat)
  | 0, _, _ => none
  | fuel + 1, i, results =>
    if i ≤ bound then
      match matchAt data i pat 0 with
      | none => none
      | some m =>
        scanLoop data pat bound fuel ((i + 1) % SIZE) (if m then results ++ [i] else results)
    else some results

/-- The scan of `state.data` for `pattern` with its bound `state.data.size() - pattern.size()`
computed in `size_t`, followed by the tail shared by `SearchHex` and `SearchAscii`
(`main.cpp` l.218-223 and l.243-248): the current result is reset and the cursor moves to
the first result. -/
def scanFor (state : HexEditorState) (pattern : List Nat) : Option HexEditorState :=
  match scanLoop state.data pattern ((state.data.length + SIZE - pattern.length) % SIZE)
      SIZE 0 state.search_results with
  | none => none
  | some results =>
    let state := { state with search_results := results, current_search_result := 0 }
    match state.search_results.get? state.current_search_result with
    | some pos => some { state with cursor_line := pos / 16, cursor_col := pos % 16 }
    | none => some state

/-- The function `SearchHex` (`main.cpp` l.190-224). -/
def SearchHex (state : HexEditorState) (query : List Nat) : Option HexEditorState :=
  let state := { state with search_results := [] }
  if query.isEmpty then some state
  else scanFor state (hexQueryBytes query)

/-- The function `SearchAscii` (`main.cpp` l.226-249). -/
def SearchAscii (state : HexEditorState) (query : List Nat) : Option HexEditorState :=
  let state := { state with search_results := [] }
  if query.isEmpty then some state
  else scanFor state query

/-- The function `Search` (`main.cpp` l.251-259); `[48, 120]` is `"0x"` and `[48, 88]` is
`"0X"`. -/
def Search (state : HexEditorState) : Option HexEditorState :=
  let query := state.search_query
  if query.take 2 = [48, 120] ∨ query.take 2 = [48, 88] then
    SearchHex state (query.drop 2)
  else
    SearchAscii state query

/-- The bytes of an ASCII string literal. -/
def ascii (s : String) : List Nat := s.toList.map Char.toNat

/-! ## EditController: the event handler of `main` -/

/-- The input events the handler tells apart; `Character` carries `event.character()`, and
`Other` is any event the handler has no case for. -/
inductive Event where
  | ArrowUp
  | ArrowDown
  | ArrowLeft
  | ArrowRight
  | Return
  | Escape
  | Backspace
  | Delete
  | Insert
  | CtrlS
  | CtrlQ
  | CtrlF
  | PageDown
  | PageUp
  | Character (input : List Nat)
  | Other
  deriving DecidableEq, Repr

/-- The local `total_lines` of the handler (`main.cpp` l.525). -/
def total_lines (state : HexEditorState) : Nat :=
  (state.data.length + 16 - 1) % SIZE / 16

/-- The local `pos = state.cursor_line * bytes_per_line + state.cursor_col`. -/
def cursorPos (state : HexEditorState) : Nat :=
  (state.cursor_line * 16 + state.cursor_col) % SIZE

/-- The repositioning of the cursor shared by Delete and Insert (`main.cpp` l.680-688 and
l.699-707). -/
def moveBack (state : HexEditorState) : HexEditorState :=
  if state.cursor_col = 16 - 1 ∧ state.cursor_line > 0 then
    { state with cursor_line := state.cursor_line - 1, cursor_col := 16 - 1 }
  else if state.cursor_col > 0 then
    { state with cursor_col := state.cursor_col - 1 }
  else if state.cursor_line > 0 then
    { state with cursor_line := state.cursor_line - 1, cursor_col := 16 - 1 }
  else state

/-- The handler while the search window is open (`main.cpp` l.526-571).  The calls
`std::string::erase` and `std::string::insert` throw when their position lies beyond the last
character of the string; nothing catches that, hence `none`. -/
def searchWindowEvent (state : HexEditorState) (event : Event) : Option HexEditorState :=
  if event = Event.Backspace ∧ state.search_cursor > 0 then
    if state.search_cursor - 1 > state.search_query.length then none
    else some { state with
      search_query := state.search_query.eraseIdx (state.search_cursor - 1)
      search_cursor := state.search_cursor - 1 }
  else if event = Event.Delete ∧ state.search_cursor < state.search_query.length then
    some { state with search_query := state.search_query.eraseIdx state.search_cursor }
  else if event = Event.ArrowLeft ∧ state.search_cursor > 0 then
    some { state with search_cursor := state.search_cursor - 1 }
  else if event = Event.ArrowRight ∧ state.search_cursor < state.search_query.length then
    some { state with search_cursor := (state.search_cursor + 1) % SIZE }
  else
    match event with
    | Event.Character input =>
      if ¬ input.isEmpty then
        if state.search_cursor > state.search_query.length then none
        else some { state with
          search_query := state.search_query.take state.search_cursor ++ input ++
            state.search_query.drop state.search_cursor
          search_cursor := (state.search_cursor + 1) % SIZE }
      else some state
    | Event.Return =>
      (Search state).map fun state => { state with search_window_open := false }
    | Event.Escape =>
      some { state with
        search_window_open := false
        search_query := []
        search_cursor := 0
        search_results := [] }
    | _ => some state

/-- The block run once `state.edit_buffer` holds two digits (`main.cpp` l.609-623): the
byte is stored when `std::stoul` returns, then edit mode is left and the cursor advances. -/
def commitEdit (state : HexEditorState) : HexEditorState :=
  let written :=
    match stoul16 state.edit_buffer with
    | some byte =>
      if cursorPos state < state.data.length then
        state.data.set (cursorPos state) (byte % 2 ^ 32 % 256)
      else state.data
    | none => state.data
  let col := (state.cursor_col + 1) % 16
  let line :=
    if col = 0 ∧ state.cursor_line < (total_lines state + SIZE - 1) % SIZE then
      (state.cursor_line + 1) % SIZE
    else state.cursor_line
  { state with
    data := written
    edit_mode := false
    edit_buffer := []
    cursor_col := col
    cursor_line := line }

/-- The handler in edit mode on a character event (`main.cpp` l.602-628). -/
def editInput (state : HexEditorState) (input : List Nat) : HexEditorState :=
  match input with
  | [] => state
  | c :: _ =>
    if isxdigit c then
      if (state.edit_buffer ++ [toupper c]).length = 2 then
        commitEdit { state with edit_buffer := state.edit_buffer ++ [toupper c] }
      else { state with edit_buffer := state.edit_buffer ++ [toupper c] }
    else state

/-- The event handler passed to `CatchEvent` (`main.cpp` l.523-714): the state after one
event.  `SaveFile` and the exit closure leave the modelled state as it is. -/
def CatchEvent (state : HexEditorState) (event : Event) : Option HexEditorState :=
  if state.search_window_open then searchWindowEvent state event
  else if event = Event.ArrowUp ∧ state.cursor_line > 0 then
    some { state with cursor_line := state.cursor_line - 1 }
  else if event = Event.ArrowDown ∧
      state.cursor_line < (total_lines state + SIZE - 1) % SIZE then
    some { state with cursor_line := (state.cursor_line + 1) % SIZE }
  else if event = Event.ArrowLeft ∧ state.cursor_col > 0 then
    some { state with cursor_col := state.cursor_col - 1 }
  else if event = Event.ArrowRight ∧ state.cursor_col < 16 - 1 then
    some { state with cursor_col := state.cursor_col + 1 }
  else if event = Event.Return ∧ ¬ state.edit_mode ∧ cursorPos state < state.data.length then
    some { state with edit_mode := true, edit_buffer := [] }
  else
    match state.edit_mode, event with
    | true, Event.Character input => some (editInput state input)
    | true, Event.Escape => some { state with edit_mode := false, edit_buffer := [] }
    | _, Event.CtrlS => some state
    | _, Event.CtrlQ => some state
    | _, Event.CtrlF =>
      some { state with
        search_window_open := true
        search_query := []
        search_cursor := 0
        search_results := [] }
    | _, Event.PageDown =>
      if ¬ state.search_results.isEmpty then
        let state := { state with
          current_search_result :=
            (state.current_search_result + 1) % SIZE % state.search_results.length }
        match state.search_results.get? state.current_search_result with
        | some pos => some { state with cursor_line := pos / 16, cursor_col := pos % 16 }
        | none => none
      else some state
    | _, Event.PageUp =>
      if ¬ state.search_results.isEmpty then
        let state := { state with
          current_search_result :=
            (state.current_search_result + SIZE - 1) % SIZE % state.search_results.length }
        match state.search_results.get? state.current_search_result with
        | some pos => some { state with cursor_line := pos / 16, cursor_col := pos % 16 }
        | none => none
      else some state
    | _, Event.Delete =>
      if cursorPos state < state.data.length then
        some (moveBack { state with data := state.data.eraseIdx (cursorPos state) })
      else some state
    | _, Event.Insert =>
      if cursorPos state < state.data.length then
        some (moveBack { state with
          data := state.data.take (cursorPos state) ++ [0] ++ state.data.drop (cursorPos state) })
      else some state
    | _, _ => some state

/-! ## Definitions used to state the properties -/

/-- The byte pattern `Search` scans for: the decoded bytes of a query that begins with
`0x`/`0X` (`main.cpp` l.253-255 and l.194-203), the query itself otherwise. -/
def queryPattern (query : List Nat) : List Nat :=
  if query.take 2 = [48, 120] ∨ query.take 2 = [48, 88] then hexQueryBytes (query.drop 2)
  else query

/-- The offsets at which `pattern` occurs in `data`, in ascending order. -/
def matchOffsets (data pattern : List Nat) : List Nat :=
  (List.range' 0 (data.length - pattern.length + 1)).filter fun i =>
    decide ((data.drop i).take pattern.length = pattern)

/-- The characters the specification calls hex digits (either case). -/
def hexDigitChars : List Nat := ascii "0123456789abcdefABCDEF"

/-- The value `val` of a hex digit as the specification uses it, by table: `0`..`9`, then
`a`..`f`, then `A`..`F`. -/
def digitValue (c : Nat) : Nat :=
  ([(48, 0), (49, 1), (50, 2), (51, 3), (52, 4), (53, 5), (54, 6), (55, 7), (56, 8), (57, 9),
    (97, 10), (98, 11), (99, 12), (100, 13), (101, 14), (102, 15),
    (65, 10), (66, 11), (67, 12), (68, 13), (69, 14), (70, 15)].lookup c).getD 0

/-- The unsigned 32-bit little-endian value of bytes `0x3C..0x3F`. -/
def e_lfanew (data : List Nat) : Nat :=
  (data.getD 0x3c 0 + 2 ^ 8 * data.getD 0x3d 0 + 2 ^ 16 * data.getD 0x3e 0 +
    2 ^ 24 * data.getD 0x3f 0) % 2 ^ 32

/-- A 72-byte buffer that starts with `4D 5A` and stores `e_lfanew = 0x44` at offset `0x3C`. -/
def sampleMZ : List Nat :=
  [0x4d, 0x5a] ++ List.replicate 58 0 ++ [0x44, 0, 0, 0] ++ List.replicate 8 0x90

/-- A state with three search results, the last one current. -/
def sampleResults : HexEditorState :=
  { data := ascii "abcabcabc", search_results := [0, 3, 6], current_search_result := 2 }

/-- The renderer's membership test `partition && pos >= partition->start && pos <=
partition->end` (`main.cpp` l.323-350). -/
def inPartition (partition : Option PartitionInfo) (pos : Nat) : Bool :=
  match partition with
  | some range => decide (pos ≥ range.start) && decide (pos ≤ range.«end»)
  | none => false

/-- The ten partition ranges of the state, in the order of their declaration. -/
def partitions (state : HexEditorState) : List (Option PartitionInfo) :=
  [state.mz_partition, state.dos_stub_partition, state.pe_partition, state.elf_partition,
    state.mach_o_partition, state.signuature_partition, state.length_chunk_partition,
    state.type_chunk_partition, state.data_chunk_partition, state.crc_chunk_partition]

/-- The event loop `screen.Loop(component)` on a finite sequence of events: the handler is
run on each event in turn, `none` as soon as it does not return. -/
def runEvents : HexEditorState → List Event → Option HexEditorState
  | state, [] => some state
  | state, event :: rest => (CatchEvent state event).bind fun next => runEvents next rest

/-- A 72-byte buffer that starts with `4D 5A` and stores `e_lfanew = 0x10` at offset `0x3C`. -/
def sampleMZLow : List Nat :=
  [0x4d, 0x5a] ++ List.replicate 58 0 ++ [0x10, 0, 0, 0] ++ List.replicate 8 0x90

/-- A 24-byte buffer that begins with the PNG signature. -/
def samplePNG : List Nat := png_header ++ List.replicate 16 0

/-- A 20-byte buffer with the cursor on its second line, at offset 17. -/
def sampleCursor : HexEditorState :=
  { data := List.range 20, cursor_line := 1, cursor_col := 1 }

/-- The events of the cursor-line claim: arrows, Enter, characters, Escape, Delete, Insert. -/
def isCursorEvent : Event → Bool
  | Event.ArrowUp => true
  | Event.ArrowDown => true
  | Event.ArrowLeft => true
  | Event.ArrowRight => true
  | Event.Return => true
  | Event.Character _ => true
  | Event.Escape => true
  | Event.Delete => true
  | Event.Insert => true
  | _ => false

/-- The invariant behind the cursor-line claim: the search window is closed, the column is
within `0..15`, the buffer leaves room for `budget` more bytes below the `size_t` limit, and
the cursor is on an existing line whenever the buffer is non-empty. -/
def CursorInv (state : HexEditorState) (budget : Nat) : Prop :=
  state.search_window_open = false ∧ state.cursor_col ≤ 15 ∧
    state.data.length + budget + 16 ≤ SIZE ∧
    (state.data ≠ [] → state.cursor_line ≤ (state.data.length - 1) / 16)

/-- A 21-byte buffer that begins with the PNG signature. -/
def samplePNGShort : List Nat := png_header ++ List.replicate 13 0

/-- The search window open on the query `abc`, over the buffer `abcabcabc`. -/
def sampleSearch : HexEditorState :=
  { data := ascii "abcabcabc"
    search_window_open := true
    search_query := ascii "abc" }

/-! ## FormatDetector: properties -/

/-- A conjunction is true exactly when both operands are read and true. -/
theorem sAnd_eq_true {a b : Option Bool} :
    sAnd a b = some true ↔ a = some true ∧ b = some true := by
  rcases a with _ | _ | _ <;> simp [sAnd]

/-- A true disjunction has a true operand. -/
theorem sOr_eq_true {a b : Option Bool} (h : sOr a b = some true) :
    a = some true ∨ b = some true := by
  rcases a with _ | _ | _ <;> simp_all [sOr]

/-- The test `header[i] == v` is true exactly when byte `i` exists and is `v`. -/
theorem byteIs_eq_true {data : List Nat} {i v : Nat} :
    byteIs data i v = some true ↔ data.get? i = some v := by
  unfold byteIs
  cases h : data.get? i <;> simp

/-- A four-byte magic only matches a buffer of at least four bytes. -/
theorem magic4_length {data : List Nat} {a b c d : Nat} (h : magic4 data a b c d = some true) :
    4 ≤ data.length := by
  simp only [magic4, sAnd_eq_true, byteIs_eq_true] at h
  have := h.2
  rw [List.get?_eq_some] at this
  obtain ⟨h3, _⟩ := this
  omega

/-- The `MZ` test is true exactly when the buffer begins with `4D 5A`. -/
theorem mz_eq_true {data : List Nat} :
    sAnd (byteIs data 0 0x4d) (byteIs data 1 0x5a) = some true ↔ data.take 2 = [0x4d, 0x5a] := by
  rw [sAnd_eq_true, byteIs_eq_true, byteIs_eq_true]
  rcases data with _ | ⟨a, _ | ⟨b, t⟩⟩ <;> simp

/-- A conjunction whose first test looks for another first byte is false, and reads no further. -/
theorem sAnd_head_ne {data : List Nat} {b a : Nat} (x : Option Bool)
    (hb : data.head? = some b) (hne : b ≠ a) : sAnd (byteIs data 0 a) x = some false := by
  rcases data with _ | ⟨c, t⟩
  · simp at hb
  · simp at hb; subst hb; simp [sAnd, byteIs, hne]

/-- A four-byte magic with another first byte does not match, and reads no further. -/
theorem magic4_head_ne {data : List Nat} {b a : Nat} (x y z : Nat)
    (hb : data.head? = some b) (hne : b ≠ a) : magic4 data a x y z = some false := by
  unfold magic4
  rw [sAnd_head_ne _ hb hne]
  simp [sAnd]

/-- On a buffer of at least four bytes `CheckPlatforms` reads inside the buffer and the first
matching magic decides. -/
theorem CheckPlatforms_cons4 (b0 b1 b2 b3 : Nat) (rest : List Nat) :
    CheckPlatforms (b0 :: b1 :: b2 :: b3 :: rest) =
      some (if b0 = 0x4d ∧ b1 = 0x5a then Platform.Windows
        else if b0 = 0x7f ∧ b1 = 0x45 ∧ b2 = 0x4c ∧ b3 = 0x46 then Platform.Linux
        else if (b0 = 0xca ∧ b1 = 0xfe ∧ b2 = 0xba ∧ b3 = 0xbe) ∨
                (b0 = 0xfe ∧ b1 = 0xed ∧ b2 = 0xfa ∧ b3 = 0xce) ∨
                (b0 = 0xfe ∧ b1 = 0xed ∧ b2 = 0xfa ∧ b3 = 0xcf) then Platform.MacOS
        else Platform.Unknown) := by
  simp only [CheckPlatforms, magic4, sAnd, sOr, byteIs, List.get?, Option.map, Option.bind,
    bind, pure]
  by_cases h0 : b0 = 0x4d
  · by_cases h1 : b1 = 0x5a <;> simp [h0, h1]
  · by_cases h7 : b0 = 0x7f
    · by_cases e1 : b1 = 0x45 <;> by_cases e2 : b2 = 0x4c <;> by_cases e3 : b3 = 0x46 <;>
        simp [h7, e1, e2, e3]
    · by_cases hc : b0 = 0xca
      · by_cases e1 : b1 = 0xfe <;> by_cases e2 : b2 = 0xba <;> by_cases e3 : b3 = 0xbe <;>
          simp [hc, e1, e2, e3]
      · by_cases hf : b0 = 0xfe
        · by_cases e1 : b1 = 0xed <;> by_cases e2 : b2 = 0xfa <;> by_cases e3 : b3 = 0xce <;>
            by_cases e4 : b3 = 0xcf <;> simp [hf, e1, e2, e3, e4]
        · simp [h0, h7, hc, hf]

/-- Claim C1: on every buffer of at least four bytes `CheckPlatforms` returns, and the result
is Windows when bytes 0..1 are `4D 5A`; otherwise Linux when bytes 0..3 are `7F 45 4C 46`;
otherwise MacOS when bytes 0..3 are `CA FE BA BE`, `FE ED FA CE` or `FE ED FA CF`; otherwise
Unknown. -/
theorem CheckPlatforms_classifies (data : List Nat) (h : 4 ≤ data.length) :
    CheckPlatforms data = some (
      if data.take 2 = [0x4d, 0x5a] then Platform.Windows
      else if data.take 4 = [0x7f, 0x45, 0x4c, 0x46] then Platform.Linux
      else if data.take 4 = [0xca, 0xfe, 0xba, 0xbe] ∨ data.take 4 = [0xfe, 0xed, 0xfa, 0xce] ∨
          data.take 4 = [0xfe, 0xed, 0xfa, 0xcf] then Platform.MacOS
      else Platform.Unknown) := by
  match data, h with
  | b0 :: b1 :: b2 :: b3 :: rest, _ =>
    rw [CheckPlatforms_cons4]
    simp

/-- Claim C1, at the 64-bit Mach-O magic followed by one byte. -/
theorem CheckPlatforms_classifies_witness :
    CheckPlatforms [0xfe, 0xed, 0xfa, 0xcf, 0x07] = some Platform.MacOS :=
  (CheckPlatforms_classifies [0xfe, 0xed, 0xfa, 0xcf, 0x07] (by decide)).trans (by decide)

/-- Claim C2 as stated fails: the 2-byte buffer `4D 5A` is shorter than four bytes and
`CheckPlatforms` classifies it Windows, not Unknown. -/
theorem mz_two_bytes_is_windows :
    ([0x4d, 0x5a] : List Nat).length < 4 ∧
      CheckPlatforms [0x4d, 0x5a] = some Platform.Windows ∧
      CheckPlatforms [0x4d, 0x5a] ≠ some Platform.Unknown := by
  decide

/-- Claim C2, amended: on a buffer shorter than four bytes, `CheckPlatforms` returns Windows
when the buffer begins with `4D 5A`; on any other such buffer it returns Unknown whenever it
returns (all its reads stay inside the buffer), which it does at least when the first byte
exists and is none of `4D`, `7F`, `CA`, `FE`. -/
theorem CheckPlatforms_short (data : List Nat) (h : data.length < 4) :
    (data.take 2 = [0x4d, 0x5a] → CheckPlatforms data = some Platform.Windows) ∧
    (data.take 2 ≠ [0x4d, 0x5a] →
      ∀ p, CheckPlatforms data = some p → p = Platform.Unknown) ∧
    (∀ b, data.head? = some b → b ≠ 0x4d → b ≠ 0x7f → b ≠ 0xca → b ≠ 0xfe →
      CheckPlatforms data = some Platform.Unknown) := by
  refine ⟨?_, ?_, ?_⟩
  · intro hmz
    simp [CheckPlatforms, mz_eq_true.2 hmz]
  · intro hmz p hp
    have h1 : sAnd (byteIs data 0 0x4d) (byteIs data 1 0x5a) ≠ some true :=
      fun hc => hmz (mz_eq_true.1 hc)
    have h2 : magic4 data 0x7f 0x45 0x4c 0x46 ≠ some true := fun hc => by
      have := magic4_length hc; omega
    have h3 : sOr (sOr (magic4 data 0xca 0xfe 0xba 0xbe) (magic4 data 0xfe 0xed 0xfa 0xce))
        (magic4 data 0xfe 0xed 0xfa 0xcf) ≠ some true := fun hc => by
      rcases sOr_eq_true hc with hc | hc
      · rcases sOr_eq_true hc with hc | hc <;> · have := magic4_length hc; omega
      · have := magic4_length hc; omega
    unfold CheckPlatforms at hp
    generalize sAnd (byteIs data 0 0x4d) (byteIs data 1 0x5a) = m at hp h1
    generalize magic4 data 0x7f 0x45 0x4c 0x46 = e at hp h2
    generalize sOr (sOr (magic4 data 0xca 0xfe 0xba 0xbe) (magic4 data 0xfe 0xed 0xfa 0xce))
        (magic4 data 0xfe 0xed 0xfa 0xcf) = o at hp h3
    rcases m with _ | _ | _ <;> rcases e with _ | _ | _ <;> rcases o with _ | _ | _ <;>
      simp_all
  · intro b hb h0 h7 hc hf
    simp [CheckPlatforms, sAnd_head_ne _ hb h0, magic4_head_ne _ _ _ hb h7,
      magic4_head_ne _ _ _ hb hc, magic4_head_ne _ _ _ hb hf, sOr]

/-- Claim C2, amended, at the 3-byte buffer `41 42 43`. -/
theorem CheckPlatforms_short_witness :
    CheckPlatforms [0x41, 0x42, 0x43] = some Platform.Unknown :=
  (CheckPlatforms_short [0x41, 0x42, 0x43] (by decide)).2.2 0x41 rfl (by decide) (by decide)
    (by decide) (by decide)

/-! ## SearchEngine: properties -/

/-- Inside the buffer the inner loop compares the window at `i + j` with the pattern. -/
theorem matchAt_eq (data : List Nat) (i : Nat) (hlen : data.length < SIZE) :
    ∀ (qs : List Nat) (j : Nat), i + j + qs.length ≤ data.length →
      matchAt data i qs j = some (decide ((data.drop (i + j)).take qs.length = qs)) := by
  intro qs
  induction qs with
  | nil => intro j _; simp [matchAt]
  | cons q qs ih =>
    intro j hj
    simp only [List.length_cons] at hj
    have hlt : i + j < data.length := by omega
    have hmod : (i + j) % SIZE = i + j := Nat.mod_eq_of_lt (by omega)
    have hdrop : data.drop (i + j) = data[i + j] :: data.drop (i + j + 1) :=
      List.drop_eq_getElem_cons hlt
    simp only [matchAt, hmod, List.get?_eq_getElem?, List.getElem?_eq_getElem hlt]
    rw [hdrop, List.length_cons, List.take_succ_cons]
    by_cases hq : data[i + j] = q
    · have := ih (j + 1) (by omega)
      simp [hq, this, Nat.add_assoc]
    · simp [hq]

/-- A scan whose offsets all stay inside the buffer pushes the matching offsets in order. -/
theorem scanLoop_eq (data pat : List Nat) (bound : Nat) (f : Nat → Bool)
    (hb : bound + 1 < SIZE) (hf : ∀ i, i ≤ bound → matchAt data i pat 0 = some (f i)) :
    ∀ (n fuel i : Nat) (acc : List Nat), i + n = bound + 1 → n < fuel →
      scanLoop data pat bound fuel i acc = some (acc ++ (List.range' i n).filter f) := by
  intro n
  induction n with
  | zero =>
    intro fuel i acc hi hfuel
    obtain ⟨fuel, rfl⟩ : ∃ k, fuel = k + 1 := ⟨fuel - 1, by omega⟩
    have : ¬ i ≤ bound := by omega
    simp [scanLoop, this]
  | succ n ih =>
    intro fuel i acc hi hfuel
    obtain ⟨fuel, rfl⟩ : ∃ k, fuel = k + 1 := ⟨fuel - 1, by omega⟩
    have hle : i ≤ bound := by omega
    have hmod : (i + 1) % SIZE = i + 1 := Nat.mod_eq_of_lt (by omega)
    simp only [scanLoop, hle, if_true, hf i hle, hmod]
    rw [ih fuel (i + 1) _ (by omega) (by omega), List.range'_succ, List.filter_cons]
    cases f i <;> simp

/-- The window of `data` at `i` equals `p` exactly when it agrees with `p` byte by byte. -/
theorem take_drop_eq_iff (data p : List Nat) (i : Nat) :
    (data.drop i).take p.length = p ↔ ∀ j, j < p.length → data.get? (i + j) = p.get? j := by
  constructor
  · intro heq j hj
    have : ((data.drop i).take p.length).get? j = p.get? j := by rw [heq]
    simpa [List.getElem?_take, hj, List.getElem?_drop] using this
  · intro hall
    apply List.ext_get?
    intro j
    by_cases hj : j < p.length
    · simpa [List.getElem?_take, hj, List.getElem?_drop] using hall j hj
    · have h1 : p.length ≤ j := by omega
      simp [List.getElem?_eq_none, h1]

/-- With `1 ≤ |p| ≤ length` the scan returns and appends the offsets where `p` occurs. -/
theorem scanFor_spec (state : HexEditorState) (p : List Nat) (h1 : 1 ≤ p.length)
    (h2 : p.length ≤ state.data.length) (h64 : state.data.length < SIZE) :
    ∃ state', scanFor state p = some state' ∧
      state'.search_results = state.search_results ++ matchOffsets state.data p ∧
      state'.data = state.data ∧ state'.current_search_result = 0 := by
  have hbound : (state.data.length + SIZE - p.length) % SIZE = state.data.length - p.length := by
    have : state.data.length + SIZE - p.length = (state.data.length - p.length) + SIZE := by omega
    rw [this, Nat.add_mod_right]
    exact Nat.mod_eq_of_lt (by omega)
  have hscan := scanLoop_eq state.data p (state.data.length - p.length)
    (fun i => decide ((state.data.drop i).take p.length = p)) (by omega)
    (fun i hi => by simpa using matchAt_eq state.data i h64 p 0 (by omega))
    (state.data.length - p.length + 1) SIZE 0 state.search_results (by omega) (by omega)
  unfold scanFor
  rw [hbound, hscan]
  simp only [matchOffsets]
  split <;> exact ⟨_, rfl, rfl, rfl, rfl⟩

/-- A query with a non-empty byte pattern passes the emptiness test and is scanned for. -/
theorem Search_eq_scanFor (state : HexEditorState)
    (h1 : 1 ≤ (queryPattern state.search_query).length) :
    Search state =
      scanFor { state with search_results := [] } (queryPattern state.search_query) := by
  unfold Search queryPattern at *
  by_cases hp : state.search_query.take 2 = [48, 120] ∨ state.search_query.take 2 = [48, 88]
  · simp only [hp, if_true] at h1 ⊢
    have : ¬ (state.search_query.drop 2).isEmpty = true := by
      intro he
      rw [List.isEmpty_iff] at he
      rw [he] at h1
      simp [hexQueryBytes] at h1
    simp [SearchHex, this]
  · simp only [hp, if_false] at h1 ⊢
    have : ¬ state.search_query.isEmpty = true := by
      intro he
      rw [List.isEmpty_iff] at he
      rw [he] at h1
      simp at h1
    simp [SearchAscii, this]

/-- Claim C3: for every query (ASCII, or hex with prefix `0x`/`0X`) whose byte pattern `p`
satisfies `1 ≤ |p| ≤ length`, `Search` returns and leaves in `search_results` exactly the
offsets `i` with `i ≤ length - |p|` and `data[i + j] = p[j]` for all `j < |p|`, in strictly
ascending order and without duplicates. -/
theorem Search_results_exact (state : HexEditorState)
    (h1 : 1 ≤ (queryPattern state.search_query).length)
    (h2 : (queryPattern state.search_query).length ≤ state.data.length)
    (h64 : state.data.length < SIZE) :
    ∃ state', Search state = some state' ∧
      state'.search_results.Pairwise (· < ·) ∧ state'.search_results.Nodup ∧
      ∀ i, i ∈ state'.search_results ↔
        (i ≤ state.data.length - (queryPattern state.search_query).length ∧
          ∀ j, j < (queryPattern state.search_query).length →
            state.data.get? (i + j) = (queryPattern state.search_query).get? j) := by
  obtain ⟨state', hs, hr, -, -⟩ :=
    scanFor_spec { state with search_results := [] } (queryPattern state.search_query) h1 h2 h64
  refine ⟨state', by rw [Search_eq_scanFor state h1]; exact hs, ?_⟩
  simp only [List.nil_append] at hr
  have hpw : state'.search_results.Pairwise (· < ·) := by
    rw [hr]
    exact List.Pairwise.sublist (List.filter_sublist _) (List.pairwise_lt_range' 0 _)
  refine ⟨hpw, hpw.imp (fun h => Nat.ne_of_lt h), ?_⟩
  intro i
  rw [hr, matchOffsets, List.mem_filter, List.mem_range', decide_eq_true_eq]
  constructor
  · rintro ⟨⟨k, hk, rfl⟩, hm⟩
    have hi : 0 + 1 * k ≤ state.data.length - (queryPattern state.search_query).length := by omega
    exact ⟨hi, (take_drop_eq_iff _ _ _).1 hm⟩
  · rintro ⟨hi, hm⟩
    exact ⟨⟨i, by omega, by omega⟩, (take_drop_eq_iff _ _ _).2 hm⟩

/-- Claim C3, at the buffer `abcabc` and the query `bc`. -/
theorem Search_results_exact_witness :
    ∃ state', Search { data := ascii "abcabc", search_query := ascii "bc" } = some state' ∧
      state'.search_results.Pairwise (· < ·) ∧ state'.search_results.Nodup ∧
      ∀ i, i ∈ state'.search_results ↔
        (i ≤ 6 - 2 ∧ ∀ j, j < 2 → (ascii "abcabc").get? (i + j) = (ascii "bc").get? j) :=
  Search_results_exact { data := ascii "abcabc", search_query := ascii "bc" }
    (by decide) (by decide) (by decide)

/-- At an offset past the last byte the inner loop reads outside the buffer. -/
theorem matchAt_none_of_le (data : List Nat) (q : Nat) (qs : List Nat) (i : Nat)
    (hi : data.length ≤ i) (h64 : i < SIZE) : matchAt data i (q :: qs) 0 = none := by
  have hmod : (i + 0) % SIZE = i := Nat.mod_eq_of_lt (by omega)
  have hget : data.get? i = none := by simp [List.getElem?_eq_none, hi]
  simp only [matchAt, hmod, hget]

/-- A scan of a non-empty pattern whose bound reaches `length` reads outside the buffer. -/
theorem scanLoop_none (data : List Nat) (q : Nat) (qs : List Nat) (bound : Nat)
    (hb : data.length ≤ bound) (h64 : data.length < SIZE) :
    ∀ (n fuel i : Nat) (acc : List Nat), i + n = data.length → n < fuel →
      scanLoop data (q :: qs) bound fuel i acc = none := by
  intro n
  induction n with
  | zero =>
    intro fuel i acc hi hfuel
    obtain ⟨fuel, rfl⟩ : ∃ k, fuel = k + 1 := ⟨fuel - 1, by omega⟩
    have hle : i ≤ bound := by omega
    simp [scanLoop, hle, matchAt_none_of_le data q qs i (by omega) (by omega)]
  | succ n ih =>
    intro fuel i acc hi hfuel
    obtain ⟨fuel, rfl⟩ : ∃ k, fuel = k + 1 := ⟨fuel - 1, by omega⟩
    have hle : i ≤ bound := by omega
    have hmod : (i + 1) % SIZE = i + 1 := Nat.mod_eq_of_lt (by omega)
    simp only [scanLoop, hle, if_true, hmod]
    cases matchAt data i (q :: qs) 0 with
    | none => rfl
    | some m => exact ih fuel (i + 1) _ (by omega) (by omega)

/-- A non-empty pattern longer than the buffer: the bound `state.data.size() - pattern.size()`
wraps around, the scan runs past the end of the buffer and reads outside it. -/
theorem Search_none_of_overlong (state : HexEditorState)
    (h1 : state.data.length < (queryPattern state.search_query).length)
    (h64 : (queryPattern state.search_query).length < SIZE) :
    Search state = none := by
  have hne : 1 ≤ (queryPattern state.search_query).length := by omega
  rw [Search_eq_scanFor state hne]
  obtain ⟨q, qs, hq⟩ : ∃ q qs, queryPattern state.search_query = q :: qs := by
    cases h : queryPattern state.search_query with
    | nil => rw [h] at hne; simp at hne
    | cons q qs => exact ⟨q, qs, rfl⟩
  have hbound : state.data.length ≤
      (state.data.length + SIZE - (queryPattern state.search_query).length) % SIZE := by
    rw [Nat.mod_eq_of_lt (by omega)]
    omega
  unfold scanFor
  simp only
  rw [hq] at hbound ⊢
  rw [scanLoop_none state.data q qs _ hbound (by omega) state.data.length SIZE 0 []
    (by omega) (by omega)]

/-- Claim C4 fails on the code: with the 1-byte buffer `A` and the query `AB`, with the empty
buffer and the query `A`, and with the 1-byte buffer `DE` and the query `0xDEAD`, the pattern
is longer than the buffer and `Search` reads outside the buffer instead of returning an
empty result list. -/
theorem Search_overlong_query :
    Search { data := ascii "A", search_query := ascii "AB" } = none ∧
      Search { data := [], search_query := ascii "A" } = none ∧
      Search { data := [0xDE], search_query := ascii "0xDEAD" } = none :=
  ⟨Search_none_of_overlong _ (by decide) (by decide),
    Search_none_of_overlong _ (by decide) (by decide),
    Search_none_of_overlong _ (by decide) (by decide)⟩

/-- Claim C5 fails on the code: the query `0xA` decodes to the empty pattern, which
`SearchHex` does not guard against (it tests the query text, not the decoded bytes), so on
the buffer `01 02 03` every offset `0..3` is reported; the empty query and the query `0x`
do give an empty result list. -/
theorem Search_single_hex_digit :
    (Search { data := [1, 2, 3], search_query := ascii "0xA" }).map
        (fun state => state.search_results) = some [0, 1, 2, 3] ∧
      (Search { data := [1, 2, 3], search_query := ascii "0x" }).map
        (fun state => state.search_results) = some [] ∧
      (Search { data := [1, 2, 3], search_query := [] }).map
        (fun state => state.search_results) = some [] := by
  decide

/-- Claim C6: for every buffer shorter than `2 ^ 64 - 4` bytes and every offset
`k ≤ length`, the buffer obtained by inserting the four bytes `DE AD BE EF` at offset `k`,
searched with the query `0xDEADBEEF`, yields a result list that contains `k`. -/
theorem Search_finds_inserted (state : HexEditorState) (k : Nat)
    (hk : k ≤ state.data.length) (h64 : state.data.length + 4 < SIZE) :
    ∃ state', Search { state with
        data := state.data.take k ++ [0xDE, 0xAD, 0xBE, 0xEF] ++ state.data.drop k
        search_query := ascii "0xDEADBEEF" } = some state' ∧
      k ∈ state'.search_results := by
  have hp : queryPattern (ascii "0xDEADBEEF") = [0xDE, 0xAD, 0xBE, 0xEF] := by decide
  have hlen : (state.data.take k ++ [0xDE, 0xAD, 0xBE, 0xEF] ++ state.data.drop k).length =
      state.data.length + 4 := by
    simp [List.length_take, List.length_drop]; omega
  obtain ⟨state', hs, hr, -, -⟩ := scanFor_spec
    { state with
      data := state.data.take k ++ [0xDE, 0xAD, 0xBE, 0xEF] ++ state.data.drop k
      search_query := ascii "0xDEADBEEF"
      search_results := [] }
    [0xDE, 0xAD, 0xBE, 0xEF] (by decide) (by simp only [hlen]; simp)
    (by simp only [hlen]; exact h64)
  refine ⟨state', ?_, ?_⟩
  · rw [Search_eq_scanFor _ (by simp only [hp]; decide)]
    simp only [hp]
    exact hs
  · rw [hr]
    simp only [List.nil_append, matchOffsets, List.mem_filter, List.mem_range',
      decide_eq_true_eq, hlen]
    refine ⟨⟨k, by simp; omega, by omega⟩, ?_⟩
    have hk' : (state.data.take k).length = k := by simp [List.length_take, hk]
    rw [List.append_assoc, List.drop_left' hk']
    rfl

/-- Claim C6, at the buffer `01 02 03` and the offset 2. -/
theorem Search_finds_inserted_witness :
    ∃ state', Search { ({ data := [1, 2, 3] } : HexEditorState) with
        data := ([1, 2, 3] : List Nat).take 2 ++ [0xDE, 0xAD, 0xBE, 0xEF] ++
          ([1, 2, 3] : List Nat).drop 2
        search_query := ascii "0xDEADBEEF" } = some state' ∧
      2 ∈ state'.search_results :=
  Search_finds_inserted { data := [1, 2, 3] } 2 (by decide) (by decide)

/-- A group of two hex digits goes through `std::stoul` whole and gives one byte. -/
theorem hexGroup_eq : ∀ a ∈ hexDigitChars, ∀ b ∈ hexDigitChars,
    (match stoul16 [a, b] with
      | some byte => [byte % 2 ^ 32 % 256]
      | none => []) = [16 * digitValue a + digitValue b] := by
  decide

/-- On a string of hex digits the decoding loop pairs the digits up, most significant first. -/
theorem hexQueryBytes_hex : ∀ h : List Nat, (∀ c ∈ h, c ∈ hexDigitChars) →
    (hexQueryBytes h).length = h.length / 2 ∧
      ∀ k, k < h.length / 2 → (hexQueryBytes h).get? k =
        some (16 * digitValue (h.getD (2 * k) 0) + digitValue (h.getD (2 * k + 1) 0))
  | [], _ => by simp [hexQueryBytes]
  | [_], _ => by simp [hexQueryBytes]
  | a :: b :: rest, hh => by
    have ha : a ∈ hexDigitChars := hh a (by simp)
    have hb : b ∈ hexDigitChars := hh b (by simp)
    obtain ⟨ihl, ihk⟩ := hexQueryBytes_hex rest (fun c hc => hh c (by simp [hc]))
    have hdiv : (a :: b :: rest).length / 2 = rest.length / 2 + 1 := by
      simp only [List.length_cons]; omega
    rw [hexQueryBytes, hexGroup_eq a ha b hb, hdiv]
    refine ⟨by simp [ihl], ?_⟩
    intro k hk
    cases k with
    | zero => simp
    | succ k =>
      have := ihk k (by omega)
      have e1 : 2 * (k + 1) = 2 * k + 1 + 1 := by ring
      have e2 : 2 * (k + 1) + 1 = 2 * k + 1 + 1 + 1 := by ring
      simp only [e1, e2, List.getD_cons_succ]
      simpa using this

/-- Claim C7: a query that begins with `0x` or `0X` followed by a string `h` of hex digits
(either case) is searched as the `|h| / 2`-byte pattern whose `k`-th byte is
`16 * val h[2k] + val h[2k+1]`, a last unpaired digit being dropped (for `h` empty `SearchHex`
returns at once with no result); a query that does not begin with `0x`/`0X` is searched as
its own characters, byte for byte. -/
theorem Search_query_encoding (state : HexEditorState) :
    (∀ x h, (x = 120 ∨ x = 88) → (∀ c ∈ h, c ∈ hexDigitChars) →
      state.search_query = 48 :: x :: h →
      ∃ pattern : List Nat, pattern.length = h.length / 2 ∧
        (∀ k, k < h.length / 2 → pattern.get? k =
          some (16 * digitValue (h.getD (2 * k) 0) + digitValue (h.getD (2 * k + 1) 0))) ∧
        Search state =
          if h = [] then some { state with search_results := [] }
          else scanFor { state with search_results := [] } pattern) ∧
    (¬ (state.search_query.take 2 = [48, 120] ∨ state.search_query.take 2 = [48, 88]) →
      Search state =
        if state.search_query = [] then some { state with search_results := [] }
        else scanFor { state with search_results := [] } state.search_query) := by
  constructor
  · intro x h hx hh hq
    obtain ⟨hl, hk⟩ := hexQueryBytes_hex h hh
    refine ⟨hexQueryBytes h, hl, hk, ?_⟩
    have hpre : state.search_query.take 2 = [48, 120] ∨ state.search_query.take 2 = [48, 88] := by
      rcases hx with rfl | rfl <;> simp [hq]
    unfold Search
    simp only [if_pos hpre, SearchHex, List.isEmpty_iff]
    simp only [hq, List.drop_succ_cons, List.drop_zero]
  · intro hpre
    simp only [Search, hpre, if_false, SearchAscii, List.isEmpty_iff]

/-- Claim C7, at the query `0x4a4B7` on the buffer `JKJK`. -/
theorem Search_query_encoding_witness :
    ∃ pattern : List Nat, pattern.length = (ascii "4a4B7").length / 2 ∧
      (∀ k, k < (ascii "4a4B7").length / 2 → pattern.get? k =
        some (16 * digitValue ((ascii "4a4B7").getD (2 * k) 0) +
          digitValue ((ascii "4a4B7").getD (2 * k + 1) 0))) ∧
      Search { data := ascii "JKJK", search_query := ascii "0x4a4B7" } =
        if ascii "4a4B7" = [] then
          some { ({ data := ascii "JKJK", search_query := ascii "0x4a4B7" } : HexEditorState) with
            search_results := [] }
        else scanFor { ({ data := ascii "JKJK", search_query := ascii "0x4a4B7" } :
            HexEditorState) with search_results := [] } pattern :=
  (Search_query_encoding { data := ascii "JKJK", search_query := ascii "0x4a4B7" }).1
    120 (ascii "4a4B7") (Or.inl rfl) (by decide) (by decide)

/-! ## Result navigation: properties -/

/-- Claim C8 fails on the code: after the search for `abc` in `abcabcabc` there are three
results and the current index is 0; PageUp computes `(0 - 1) % 3` in `size_t`, that is
`(2 ^ 64 - 1) % 3 = 0`, so the index stays 0, where the claim says `(0 + 3 - 1) % 3 = 2`. -/
theorem PageUp_from_first_of_three :
    ∃ state, Search { data := ascii "abcabcabc", search_query := ascii "abc" } = some state ∧
      state.search_results = [0, 3, 6] ∧ state.current_search_result = 0 ∧
      (CatchEvent state Event.PageUp).map (fun state => state.current_search_result) = some 0 ∧
      (0 + 3 - 1) % 3 = 2 := by
  refine ⟨_, rfl, ?_⟩
  decide

/-- Claim C9: outside the search window, with a non-empty result list of size `count` and a
current index `i < count`, PageDown sets the current index to `(i + 1) % count` and keeps the
results; with an empty result list PageDown and PageUp change nothing, in every mode. -/
theorem PageDown_cyclic (state : HexEditorState) :
    (state.search_window_open = false → state.search_results ≠ [] →
      state.current_search_result < state.search_results.length →
      state.search_results.length < SIZE →
      ∃ state', CatchEvent state Event.PageDown = some state' ∧
        state'.current_search_result =
          (state.current_search_result + 1) % state.search_results.length ∧
        state'.search_results = state.search_results) ∧
    (state.search_results = [] →
      CatchEvent state Event.PageDown = some state ∧
      CatchEvent state Event.PageUp = some state) := by
  constructor
  · intro ho hne hi h64
    have hmod : (state.current_search_result + 1) % SIZE = state.current_search_result + 1 :=
      Nat.mod_eq_of_lt (by omega)
    have hpos : 0 < state.search_results.length := List.length_pos.2 hne
    have hlt : (state.current_search_result + 1) % state.search_results.length <
        state.search_results.length := Nat.mod_lt _ hpos
    have hemp : ¬ state.search_results.isEmpty = true := by simpa [List.isEmpty_iff] using hne
    simp only [CatchEvent, ho, hemp, hmod]
    simp [List.getElem?_eq_getElem hlt]
  · intro he
    cases hsw : state.search_window_open <;> cases hed : state.edit_mode <;>
      simp [CatchEvent, searchWindowEvent, he, hsw, hed]

/-- Claim C9, at index 2 of three results: PageDown yields index 0. -/
theorem PageDown_cyclic_witness :
    ∃ state', CatchEvent sampleResults Event.PageDown = some state' ∧
      state'.current_search_result =
        (sampleResults.current_search_result + 1) % sampleResults.search_results.length ∧
      state'.search_results = sampleResults.search_results :=
  (PageDown_cyclic sampleResults).1 rfl (by decide) (by decide) (by decide)

/-! ## PartitionBuilder: properties -/

/-- The classification is Windows exactly when the buffer begins with `4D 5A`. -/
theorem CheckPlatforms_windows_iff (data : List Nat) :
    CheckPlatforms data = some Platform.Windows ↔ data.take 2 = [0x4d, 0x5a] := by
  rw [← mz_eq_true]
  unfold CheckPlatforms
  generalize sAnd (byteIs data 0 0x4d) (byteIs data 1 0x5a) = m
  generalize magic4 data 0x7f 0x45 0x4c 0x46 = e
  generalize sOr (sOr (magic4 data 0xca 0xfe 0xba 0xbe) (magic4 data 0xfe 0xed 0xfa 0xce))
      (magic4 data 0xfe 0xed 0xfa 0xcf) = o
  rcases m with _ | _ | _ <;> rcases e with _ | _ | _ <;> rcases o with _ | _ | _ <;> simp

/-- Inside the buffer the 32-bit load is the little-endian value of its four bytes. -/
theorem readU32_eq (data : List Nat) (off : Nat) (h : off + 4 ≤ data.length) :
    readU32 data off = some ((data.getD off 0 + 2 ^ 8 * data.getD (off + 1) 0 +
      2 ^ 16 * data.getD (off + 2) 0 + 2 ^ 24 * data.getD (off + 3) 0) % 2 ^ 32) := by
  have h0 : off < data.length := by omega
  have h1 : off + 1 < data.length := by omega
  have h2 : off + 2 < data.length := by omega
  have h3 : off + 3 < data.length := by omega
  simp [readU32, List.getD_eq_getElem?_getD, List.getElem?_eq_getElem, h0, h1, h2, h3]

/-- Claim C10: for every buffer classified Windows (in a state where DOSStub and PEBody are
still absent, as at load time) the builder returns and sets MZHeader = `[0, 0x3F]`; if
`length ≥ 0x40` it also sets DOSStub = `[0x40, e_lfanew - 1]`, the subtraction being that of
`uint32_t` (so `e_lfanew - 1` itself once `e_lfanew ≥ 1`), and PEBody =
`[e_lfanew, length - 1]`, where `e_lfanew` is the unsigned 32-bit little-endian value of bytes
`0x3C..0x3F`; if `length < 0x40`, DOSStub and PEBody stay absent. -/
theorem windows_partitions (state : HexEditorState)
    (hw : CheckPlatforms state.data = some Platform.Windows)
    (hd : state.dos_stub_partition = none) (hp : state.pe_partition = none)
    (h64 : state.data.length < SIZE) :
    ∃ state', DetermineExecutablePartitions state = some state' ∧
      state'.mz_partition = some ⟨0, 0x3f⟩ ∧
      (0x40 ≤ state.data.length →
        state'.dos_stub_partition = some ⟨0x40, (e_lfanew state.data + 2 ^ 32 - 1) % 2 ^ 32⟩ ∧
        (1 ≤ e_lfanew state.data →
          state'.dos_stub_partition = some ⟨0x40, e_lfanew state.data - 1⟩) ∧
        state'.pe_partition = some ⟨e_lfanew state.data, state.data.length - 1⟩) ∧
      (state.data.length < 0x40 →
        state'.dos_stub_partition = none ∧ state'.pe_partition = none) := by
  have hmz := (CheckPlatforms_windows_iff state.data).1 hw
  obtain ⟨rest, hdata⟩ : ∃ rest, state.data = 0x4d :: 0x5a :: rest := by
    rcases hs : state.data with _ | ⟨a, _ | ⟨b, t⟩⟩
    · rw [hs] at hmz; simp at hmz
    · rw [hs] at hmz; simp at hmz
    · rw [hs] at hmz; simp at hmz; exact ⟨t, by rw [hmz.1, hmz.2]⟩
  have hpng : isPngFrom state.data png_header 0 = some false := by
    rw [hdata]; simp [isPngFrom, png_header]
  by_cases hlen : 0x40 ≤ state.data.length
  · have hrd := readU32_eq state.data 0x3c (by omega)
    have hsz : (state.data.length + SIZE - 1) % SIZE = state.data.length - 1 := by
      have : state.data.length + SIZE - 1 = (state.data.length - 1) + SIZE := by omega
      rw [this, Nat.add_mod_right]
      exact Nat.mod_eq_of_lt (by omega)
    have hw1 : windowsPartitions state = some { state with
        mz_partition := some ⟨0, 0x3f⟩
        dos_stub_partition := some ⟨0x40, (e_lfanew state.data + 2 ^ 32 - 1) % 2 ^ 32⟩
        pe_partition := some ⟨e_lfanew state.data, state.data.length - 1⟩ } := by
      have h1 : state.data.length ≥ 0x40 := hlen
      have h2 : state.data.length ≥ 0x3c + 4 := hlen
      simp only [windowsPartitions, h1, h2, if_true, hrd, hsz, e_lfanew]
      rfl
    refine ⟨{ state with
        mz_partition := some ⟨0, 0x3f⟩
        dos_stub_partition := some ⟨0x40, (e_lfanew state.data + 2 ^ 32 - 1) % 2 ^ 32⟩
        pe_partition := some ⟨e_lfanew state.data, state.data.length - 1⟩ }, ?_, rfl, ?_, ?_⟩
    · simp [DetermineExecutablePartitions, hw, hw1, hpng]
    · intro _
      refine ⟨rfl, ?_, rfl⟩
      intro he
      have : (e_lfanew state.data + 2 ^ 32 - 1) % 2 ^ 32 = e_lfanew state.data - 1 := by
        have hlt : e_lfanew state.data < 2 ^ 32 := Nat.mod_lt _ (by norm_num)
        have : e_lfanew state.data + 2 ^ 32 - 1 = (e_lfanew state.data - 1) + 2 ^ 32 := by omega
        rw [this, Nat.add_mod_right]
        exact Nat.mod_eq_of_lt (by omega)
      simp only [this]
    · intro hc; omega
  · have hw1 : windowsPartitions state =
        some { state with mz_partition := some ⟨0, 0x3f⟩ } := by
      have h1 : ¬ state.data.length ≥ 0x40 := hlen
      simp only [windowsPartitions, h1, if_false]
      rfl
    refine ⟨{ state with mz_partition := some ⟨0, 0x3f⟩ }, ?_, rfl, ?_, ?_⟩
    · simp [DetermineExecutablePartitions, hw, hw1, hpng]
    · intro hc; omega
    · intro _; exact ⟨hd, hp⟩

/-- Claim C10, at a 72-byte buffer with `e_lfanew = 0x44`. -/
theorem windows_partitions_witness :
    ∃ state', DetermineExecutablePartitions { data := sampleMZ } = some state' ∧
      state'.mz_partition = some ⟨0, 0x3f⟩ ∧
      (0x40 ≤ sampleMZ.length →
        state'.dos_stub_partition = some ⟨0x40, (e_lfanew sampleMZ + 2 ^ 32 - 1) % 2 ^ 32⟩ ∧
        (1 ≤ e_lfanew sampleMZ →
          state'.dos_stub_partition = some ⟨0x40, e_lfanew sampleMZ - 1⟩) ∧
        state'.pe_partition = some ⟨e_lfanew sampleMZ, sampleMZ.length - 1⟩) ∧
      (sampleMZ.length < 0x40 →
        state'.dos_stub_partition = none ∧ state'.pe_partition = none) :=
  windows_partitions { data := sampleMZ } (by decide) rfl rfl (by decide)

/-! ## PartitionBuilder: overlap and PNG ranges -/

/-- On a buffer of at least `0x40` bytes that begins with `4D 5A` the builder sets the three
Windows ranges and nothing else. -/
theorem builder_windows_long (state : HexEditorState)
    (hmz : state.data.take 2 = [0x4d, 0x5a]) (hlen : 0x40 ≤ state.data.length)
    (h64 : state.data.length < SIZE) :
    DetermineExecutablePartitions state = some { state with
      mz_partition := some ⟨0, 0x3f⟩
      dos_stub_partition := some ⟨0x40, (e_lfanew state.data + 2 ^ 32 - 1) % 2 ^ 32⟩
      pe_partition := some ⟨e_lfanew state.data, state.data.length - 1⟩ } := by
  have hw := (CheckPlatforms_windows_iff state.data).2 hmz
  obtain ⟨rest, hdata⟩ : ∃ rest, state.data = 0x4d :: 0x5a :: rest := by
    rcases hs : state.data with _ | ⟨a, _ | ⟨b, t⟩⟩
    · rw [hs] at hmz; simp at hmz
    · rw [hs] at hmz; simp at hmz
    · rw [hs] at hmz; simp at hmz; exact ⟨t, by rw [hmz.1, hmz.2]⟩
  have hpng : isPngFrom state.data png_header 0 = some false := by
    rw [hdata]; simp [isPngFrom, png_header]
  have hrd := readU32_eq state.data 0x3c (by omega)
  have hsz : (state.data.length + SIZE - 1) % SIZE = state.data.length - 1 := by
    have : state.data.length + SIZE - 1 = (state.data.length - 1) + SIZE := by omega
    rw [this, Nat.add_mod_right]
    exact Nat.mod_eq_of_lt (by omega)
  have hw1 : windowsPartitions state = some { state with
      mz_partition := some ⟨0, 0x3f⟩
      dos_stub_partition := some ⟨0x40, (e_lfanew state.data + 2 ^ 32 - 1) % 2 ^ 32⟩
      pe_partition := some ⟨e_lfanew state.data, state.data.length - 1⟩ } := by
    have h1 : state.data.length ≥ 0x40 := hlen
    have h2 : state.data.length ≥ 0x3c + 4 := hlen
    simp only [windowsPartitions, h1, h2, if_true, hrd, hsz, e_lfanew]
    rfl
  simp [DetermineExecutablePartitions, hw, hw1, hpng]

/-- Claim C11 as stated fails: on a 72-byte buffer that starts with `4D 5A` and stores
`e_lfanew = 0x10`, offset `0x10` belongs both to MZHeader = `[0, 0x3F]` and to PEBody =
`[0x10, 71]`. -/
theorem mz_pe_overlap :
    0x40 ≤ sampleMZLow.length ∧ sampleMZLow.take 2 = [0x4d, 0x5a] ∧
      ∃ state', DetermineExecutablePartitions { data := sampleMZLow } = some state' ∧
        inPartition state'.mz_partition 0x10 = true ∧
        inPartition state'.pe_partition 0x10 = true := by
  refine ⟨by decide, by decide, _, rfl, ?_⟩
  decide

/-- Claim C11, amended: for every buffer of length `≥ 0x40` that starts with `4D 5A`, the
three inclusive ranges MZHeader, DOSStub and PEBody produced by the builder are pairwise
non-overlapping (no offset belongs to two of them) exactly when the `e_lfanew` stored at offset
`0x3C` is at least `0x40`. -/
theorem windows_ranges_disjoint_iff (state : HexEditorState)
    (hmz : state.data.take 2 = [0x4d, 0x5a]) (hlen : 0x40 ≤ state.data.length)
    (h64 : state.data.length < SIZE) :
    ∃ state', DetermineExecutablePartitions state = some state' ∧
      ((∀ pos,
          ¬ (inPartition state'.mz_partition pos = true ∧
              inPartition state'.dos_stub_partition pos = true) ∧
          ¬ (inPartition state'.mz_partition pos = true ∧
              inPartition state'.pe_partition pos = true) ∧
          ¬ (inPartition state'.dos_stub_partition pos = true ∧
              inPartition state'.pe_partition pos = true)) ↔
        0x40 ≤ e_lfanew state.data) := by
  refine ⟨_, builder_windows_long state hmz hlen h64, ?_⟩
  simp only [inPartition, Bool.and_eq_true, decide_eq_true_eq]
  constructor
  · intro h
    by_contra hc
    have := (h (e_lfanew state.data)).2.1
    omega
  · intro he pos
    have hlt : e_lfanew state.data < 2 ^ 32 := Nat.mod_lt _ (by norm_num)
    have hwrap : (e_lfanew state.data + 2 ^ 32 - 1) % 2 ^ 32 = e_lfanew state.data - 1 := by
      have : e_lfanew state.data + 2 ^ 32 - 1 = (e_lfanew state.data - 1) + 2 ^ 32 := by omega
      rw [this, Nat.add_mod_right]
      exact Nat.mod_eq_of_lt (by omega)
    rw [hwrap]
    omega

/-- Claim C11, amended, at a 72-byte buffer with `e_lfanew = 0x44`. -/
theorem windows_ranges_disjoint_iff_witness :
    ∃ state', DetermineExecutablePartitions { data := sampleMZ } = some state' ∧
      ((∀ pos,
          ¬ (inPartition state'.mz_partition pos = true ∧
              inPartition state'.dos_stub_partition pos = true) ∧
          ¬ (inPartition state'.mz_partition pos = true ∧
              inPartition state'.pe_partition pos = true) ∧
          ¬ (inPartition state'.dos_stub_partition pos = true ∧
              inPartition state'.pe_partition pos = true)) ↔
        0x40 ≤ e_lfanew sampleMZ) :=
  windows_ranges_disjoint_iff { data := sampleMZ } (by decide) (by decide) (by decide)

/-- Inside the buffer the signature loop compares the window at `i` with the header. -/
theorem isPngFrom_eq (data : List Nat) :
    ∀ (hdr : List Nat) (i : Nat), i + hdr.length ≤ data.length →
      isPngFrom data hdr i = some (decide ((data.drop i).take hdr.length = hdr)) := by
  intro hdr
  induction hdr with
  | nil => intro i _; simp [isPngFrom]
  | cons q qs ih =>
    intro i hi
    simp only [List.length_cons] at hi
    have hlt : i < data.length := by omega
    have hdrop : data.drop i = data[i] :: data.drop (i + 1) := List.drop_eq_getElem_cons hlt
    simp only [isPngFrom, List.get?_eq_getElem?, List.getElem?_eq_getElem hlt]
    rw [hdrop, List.length_cons, List.take_succ_cons]
    by_cases hq : data[i] = q
    · have := ih (i + 1) (by omega)
      simp [hq, this]
    · simp [hq]

/-- The Windows branch returns and leaves the buffer and the PNG ranges as they are. -/
theorem windowsPartitions_frame (state : HexEditorState) :
    ∃ state', windowsPartitions state = some state' ∧ state'.data = state.data ∧
      state'.signuature_partition = state.signuature_partition ∧
      state'.length_chunk_partition = state.length_chunk_partition ∧
      state'.type_chunk_partition = state.type_chunk_partition ∧
      state'.data_chunk_partition = state.data_chunk_partition ∧
      state'.crc_chunk_partition = state.crc_chunk_partition := by
  by_cases hlen : 0x40 ≤ state.data.length
  · have hrd := readU32_eq state.data 0x3c (by omega)
    have h1 : state.data.length ≥ 0x40 := hlen
    have h2 : state.data.length ≥ 0x3c + 4 := hlen
    simp only [windowsPartitions, h1, h2, if_true, hrd]
    exact ⟨_, rfl, rfl, rfl, rfl, rfl, rfl, rfl⟩
  · have h1 : ¬ state.data.length ≥ 0x40 := hlen
    simp only [windowsPartitions, h1, if_false]
    exact ⟨_, rfl, rfl, rfl, rfl, rfl, rfl, rfl⟩

/-- On a buffer of at least four bytes `CheckPlatforms` returns. -/
theorem CheckPlatforms_some (data : List Nat) (h : 4 ≤ data.length) :
    ∃ plat, CheckPlatforms data = some plat := by
  match data, h with
  | b0 :: b1 :: b2 :: b3 :: rest, _ => exact ⟨_, CheckPlatforms_cons4 b0 b1 b2 b3 rest⟩

/-- On a buffer of at least eight bytes the builder returns, and the PNG ranges are set by
`pngPartitions` exactly when bytes 0..7 are the signature. -/
theorem builder_png (state : HexEditorState) (h8 : 8 ≤ state.data.length) :
    ∃ mid, mid.data = state.data ∧
      mid.signuature_partition = state.signuature_partition ∧
      mid.length_chunk_partition = state.length_chunk_partition ∧
      mid.type_chunk_partition = state.type_chunk_partition ∧
      mid.data_chunk_partition = state.data_chunk_partition ∧
      mid.crc_chunk_partition = state.crc_chunk_partition ∧
      DetermineExecutablePartitions state =
        some (if state.data.take 8 = png_header then pngPartitions mid else mid) := by
  obtain ⟨plat, hplat⟩ := CheckPlatforms_some state.data (by omega)
  obtain ⟨w, hw, hwd, hw1, hw2, hw3, hw4, hw5⟩ := windowsPartitions_frame state
  have hpng := isPngFrom_eq state.data png_header 0 (by simpa [png_header] using h8)
  simp only [List.drop_zero] at hpng
  have hl : png_header.length = 8 := rfl
  rw [hl] at hpng
  cases plat with
  | Windows =>
    refine ⟨w, hwd, hw1, hw2, hw3, hw4, hw5, ?_⟩
    by_cases hp : state.data.take 8 = png_header <;>
      simp [DetermineExecutablePartitions, hplat, hw, hwd, hpng, hp]
  | Linux =>
    refine ⟨{ state with elf_partition := some ⟨0, (state.data.length + SIZE - 1) % SIZE⟩ },
      rfl, rfl, rfl, rfl, rfl, rfl, ?_⟩
    by_cases hp : state.data.take 8 = png_header <;>
      simp [DetermineExecutablePartitions, hplat, hpng, hp]
  | MacOS =>
    refine ⟨{ state with
        mach_o_partition := some ⟨0, (state.data.length + SIZE - 1) % SIZE⟩ },
      rfl, rfl, rfl, rfl, rfl, rfl, ?_⟩
    by_cases hp : state.data.take 8 = png_header <;>
      simp [DetermineExecutablePartitions, hplat, hpng, hp]
  | Unknown =>
    refine ⟨state, rfl, rfl, rfl, rfl, rfl, rfl, ?_⟩
    by_cases hp : state.data.take 8 = png_header <;>
      simp [DetermineExecutablePartitions, hplat, hpng, hp]

/-- The PNG ranges the builder leaves on a buffer of at least eight bytes. -/
theorem builder_png_ranges (state : HexEditorState) (h8 : 8 ≤ state.data.length)
    (h64 : state.data.length < SIZE)
    (h0 : state.signuature_partition = none ∧ state.length_chunk_partition = none ∧
      state.type_chunk_partition = none ∧ state.data_chunk_partition = none ∧
      state.crc_chunk_partition = none) :
    ∃ state', DetermineExecutablePartitions state = some state' ∧
      (state.data.take 8 ≠ png_header →
        state'.signuature_partition = none ∧ state'.length_chunk_partition = none ∧
        state'.type_chunk_partition = none ∧ state'.data_chunk_partition = none ∧
        state'.crc_chunk_partition = none) ∧
      (state.data.take 8 = png_header →
        state'.signuature_partition = some ⟨0, 7⟩ ∧
        state'.length_chunk_partition =
          (if 12 ≤ state.data.length then some ⟨8, 11⟩ else none) ∧
        state'.type_chunk_partition =
          (if 16 ≤ state.data.length then some ⟨12, 15⟩ else none) ∧
        state'.data_chunk_partition =
          (if 20 ≤ state.data.length then some ⟨16, state.data.length - 9⟩ else none) ∧
        state'.crc_chunk_partition =
          (if 20 ≤ state.data.length then
            some ⟨state.data.length - 8, state.data.length - 1⟩ else none)) := by
  obtain ⟨mid, hd, m1, m2, m3, m4, m5, hb⟩ := builder_png state h8
  obtain ⟨z1, z2, z3, z4, z5⟩ := h0
  refine ⟨_, hb, ?_, ?_⟩
  · intro hp
    rw [if_neg hp]
    exact ⟨m1.trans z1, m2.trans z2, m3.trans z3, m4.trans z4, m5.trans z5⟩
  · intro hp
    rw [if_pos hp]
    have hl : png_header.length = 8 := rfl
    have e2 : (state.data.length + SIZE - 8) % SIZE = state.data.length - 8 := by
      have : state.data.length + SIZE - 8 = (state.data.length - 8) + SIZE := by omega
      rw [this, Nat.add_mod_right]
      exact Nat.mod_eq_of_lt (by omega)
    have e3 : (state.data.length + SIZE - 1) % SIZE = state.data.length - 1 := by
      have : state.data.length + SIZE - 1 = (state.data.length - 1) + SIZE := by omega
      rw [this, Nat.add_mod_right]
      exact Nat.mod_eq_of_lt (by omega)
    have n4 := m4.trans z4
    have n5 := m5.trans z5
    have n3 := m3.trans z3
    have n2 := m2.trans z2
    by_cases h12 : 12 ≤ state.data.length
    · by_cases h16 : 16 ≤ state.data.length
      · by_cases h20 : 20 ≤ state.data.length
        · have e1 : (state.data.length + SIZE - 8 + SIZE - 1) % SIZE =
              state.data.length - 9 := by
            have : state.data.length + SIZE - 8 + SIZE - 1 =
                (state.data.length - 9) + SIZE * 2 := by omega
            rw [this, Nat.add_mul_mod_self_left]
            exact Nat.mod_eq_of_lt (by omega)
          have a1 : mid.data.length ≥ 8 + 4 := by rw [hd]; omega
          have a2 : mid.data.length ≥ 8 + 4 + 4 := by rw [hd]; omega
          have a3 : mid.data.length ≥ 8 + 4 + 4 + 4 := by rw [hd]; omega
          simp only [pngPartitions, hl, a1, a2, a3, if_true, h12, h16, h20, hd, e1, e2, e3]
          simp
        · have a1 : mid.data.length ≥ 8 + 4 := by rw [hd]; omega
          have a2 : mid.data.length ≥ 8 + 4 + 4 := by rw [hd]; omega
          have a3 : ¬ mid.data.length ≥ 8 + 4 + 4 + 4 := by rw [hd]; omega
          simp only [pngPartitions, hl, a1, a2, a3, if_true, if_false, h12, h16, h20, n4, n5]
          simp
      · have a1 : mid.data.length ≥ 8 + 4 := by rw [hd]; omega
        have a2 : ¬ mid.data.length ≥ 8 + 4 + 4 := by rw [hd]; omega
        have h20 : ¬ 20 ≤ state.data.length := by omega
        simp only [pngPartitions, hl, a1, a2, if_true, if_false, h12, h16, h20, n3, n4, n5]
        simp
    · have a1 : ¬ mid.data.length ≥ 8 + 4 := by rw [hd]; omega
      have h16 : ¬ 16 ≤ state.data.length := by omega
      have h20 : ¬ 20 ≤ state.data.length := by omega
      simp only [pngPartitions, hl, a1, if_false, h12, h16, h20, n2, n3, n4, n5]
      simp

/-- Claim C12: for every buffer of length `≥ 8`, whatever its platform classification, the
builder returns and produces PNG ranges iff bytes 0..7 equal `89 50 4E 47 0D 0A 1A 0A`, and
then PNGSignature = `[0, 7]`; PNGLengthField = `[8, 11]` iff `length ≥ 12`; PNGTypeField =
`[12, 15]` iff `length ≥ 16`; PNGDataChunk = `[16, length - 9]` and PNGCRCField =
`[length - 8, length - 1]` iff `length ≥ 20`, so that `PNGDataChunk.end + 1 =
PNGCRCField.start` and `PNGCRCField.end = length - 1`.  The PNG ranges are absent before the
builder runs, as at load time. -/
theorem png_partitions (state : HexEditorState) (h8 : 8 ≤ state.data.length)
    (h64 : state.data.length < SIZE)
    (h0 : state.signuature_partition = none ∧ state.length_chunk_partition = none ∧
      state.type_chunk_partition = none ∧ state.data_chunk_partition = none ∧
      state.crc_chunk_partition = none) :
    ∃ state', DetermineExecutablePartitions state = some state' ∧
      (state.data.take 8 ≠ png_header →
        state'.signuature_partition = none ∧ state'.length_chunk_partition = none ∧
        state'.type_chunk_partition = none ∧ state'.data_chunk_partition = none ∧
        state'.crc_chunk_partition = none) ∧
      (state.data.take 8 = png_header →
        state'.signuature_partition = some ⟨0, 7⟩ ∧
        state'.length_chunk_partition =
          (if 12 ≤ state.data.length then some ⟨8, 11⟩ else none) ∧
        state'.type_chunk_partition =
          (if 16 ≤ state.data.length then some ⟨12, 15⟩ else none) ∧
        state'.data_chunk_partition =
          (if 20 ≤ state.data.length then some ⟨16, state.data.length - 9⟩ else none) ∧
        state'.crc_chunk_partition =
          (if 20 ≤ state.data.length then
            some ⟨state.data.length - 8, state.data.length - 1⟩ else none) ∧
        ∀ chunk crc, state'.data_chunk_partition = some chunk →
          state'.crc_chunk_partition = some crc →
          chunk.«end» + 1 = crc.start ∧ crc.«end» = state.data.length - 1) := by
  obtain ⟨state', hb, hno, hyes⟩ := builder_png_ranges state h8 h64 h0
  refine ⟨state', hb, hno, fun hp => ?_⟩
  obtain ⟨h1, h2, h3, h4, h5⟩ := hyes hp
  refine ⟨h1, h2, h3, h4, h5, ?_⟩
  intro chunk crc hchunk hcrc
  rw [h4] at hchunk
  rw [h5] at hcrc
  by_cases h20 : 20 ≤ state.data.length
  · rw [if_pos h20] at hchunk hcrc
    rw [← Option.some.inj hchunk, ← Option.some.inj hcrc]
    exact ⟨by show state.data.length - 9 + 1 = state.data.length - 8; omega, rfl⟩
  · rw [if_neg h20] at hchunk
    exact absurd hchunk (by simp)

/-- Claim C12, at a 24-byte buffer that begins with the PNG signature. -/
theorem png_partitions_witness :
    ∃ state', DetermineExecutablePartitions { data := samplePNG } = some state' ∧
      state'.signuature_partition = some ⟨0, 7⟩ ∧
      state'.length_chunk_partition = some ⟨8, 11⟩ ∧
      state'.type_chunk_partition = some ⟨12, 15⟩ ∧
      state'.data_chunk_partition = some ⟨16, 15⟩ ∧
      state'.crc_chunk_partition = some ⟨16, 23⟩ :=
  let ⟨state', hb, _, hyes⟩ :=
    png_partitions { data := samplePNG } (by decide) (by decide) ⟨rfl, rfl, rfl, rfl, rfl⟩
  ⟨state', hb, (hyes (by decide)).1, (hyes (by decide)).2.1, (hyes (by decide)).2.2.1,
    (hyes (by decide)).2.2.2.1, (hyes (by decide)).2.2.2.2.1⟩

/-! ## EditController: properties -/

/-- Two hex digits typed in edit mode are accepted and, upper-cased, parse to one byte. -/
theorem editDigits_eq : ∀ a ∈ hexDigitChars, ∀ b ∈ hexDigitChars,
    isxdigit a = true ∧
      (stoul16 [toupper a, toupper b]).map (fun byte => byte % 2 ^ 32 % 256) =
        some (16 * digitValue a + digitValue b) := by
  decide

/-- Claim C13: from any Navigate state whose cursor offset `p = line * 16 + column` is
`< length`, the events Enter, `d1`, `d2` with `d1`, `d2` hex digits (either case) end in Navigate
mode with an empty pending buffer, byte `p` equal to `16 * val d1 + val d2` (the other bytes
unchanged), and the cursor at column `(column + 1) % 16`, the line increased by 1 exactly when
the new column is 0 and the cursor was not on the last line `(length - 1) / 16`. -/
theorem edit_commits_byte (state : HexEditorState) (d1 d2 : Nat)
    (hnav : state.search_window_open = false ∧ state.edit_mode = false)
    (hd1 : d1 ∈ hexDigitChars) (hd2 : d2 ∈ hexDigitChars)
    (hp : state.cursor_line * 16 + state.cursor_col < state.data.length)
    (h64 : state.data.length + 16 ≤ SIZE) :
    ∃ s1 s2 s3, CatchEvent state Event.Return = some s1 ∧
      CatchEvent s1 (Event.Character [d1]) = some s2 ∧
      CatchEvent s2 (Event.Character [d2]) = some s3 ∧
      s3.search_window_open = false ∧ s3.edit_mode = false ∧ s3.edit_buffer = [] ∧
      s3.data = state.data.set (state.cursor_line * 16 + state.cursor_col)
        (16 * digitValue d1 + digitValue d2) ∧
      s3.cursor_col = (state.cursor_col + 1) % 16 ∧
      s3.cursor_line =
        (if (state.cursor_col + 1) % 16 = 0 ∧ state.cursor_line ≠ (state.data.length - 1) / 16
          then state.cursor_line + 1 else state.cursor_line) := by
  obtain ⟨hw, he⟩ := hnav
  have hpos : cursorPos state = state.cursor_line * 16 + state.cursor_col :=
    Nat.mod_eq_of_lt (by omega)
  have hx1 := (editDigits_eq d1 hd1 d2 hd2).1
  have hx2 := (editDigits_eq d2 hd2 d1 hd1).1
  have hbyte := (editDigits_eq d1 hd1 d2 hd2).2
  have hlines : (total_lines state + SIZE - 1) % SIZE = (state.data.length - 1) / 16 := by
    have h1 : (state.data.length + 16 - 1) % SIZE = state.data.length + 15 :=
      Nat.mod_eq_of_lt (by simp only [SIZE] at *; omega)
    have h2 : total_lines state = (state.data.length + 15) / 16 := by
      simp only [total_lines, h1]
    have h3 : total_lines state + SIZE - 1 = (state.data.length - 1) / 16 + SIZE := by
      rw [h2]; omega
    rw [h3, Nat.add_mod_right]
    exact Nat.mod_eq_of_lt (by simp only [SIZE] at *; omega)
  have hret : CatchEvent state Event.Return =
      some { state with edit_mode := true, edit_buffer := [] } := by
    have : cursorPos state < state.data.length := by rw [hpos]; exact hp
    simp [CatchEvent, hw, he, this]
  have hc1 : CatchEvent { state with edit_mode := true, edit_buffer := [] }
      (Event.Character [d1]) =
      some { state with edit_mode := true, edit_buffer := [toupper d1] } := by
    simp [CatchEvent, hw, editInput, hx1]
  have hc2 : CatchEvent { state with edit_mode := true, edit_buffer := [toupper d1] }
      (Event.Character [d2]) =
      some (commitEdit { state with
        edit_mode := true, edit_buffer := [toupper d1, toupper d2] }) := by
    simp [CatchEvent, hw, editInput, hx2]
  refine ⟨_, _, _, hret, hc1, hc2, ?_⟩
  cases hst : stoul16 [toupper d1, toupper d2] with
  | none => rw [hst] at hbyte; simp at hbyte
  | some byte =>
    rw [hst] at hbyte
    simp only [Option.map_some', Option.some.injEq] at hbyte
    have hlt : state.cursor_line < (state.data.length - 1) / 16 ↔
        state.cursor_line ≠ (state.data.length - 1) / 16 := by omega
    have hsucc : (state.cursor_line + 1) % SIZE = state.cursor_line + 1 :=
      Nat.mod_eq_of_lt (by omega)
    simp only [commitEdit, cursorPos, total_lines] at hpos hlines ⊢
    simp only [hst, hpos, hp, if_true, hbyte, hw, hlines, hlt, hsucc]
    exact ⟨trivial, trivial, trivial, trivial, trivial, trivial⟩

/-- Claim C13, at offset 0 of a 3-byte buffer with the digits `4`, `1`: byte 0 becomes `0x41`
and the cursor moves to column 1 of the same line. -/
theorem edit_commits_byte_witness :
    ∃ s1 s2 s3, CatchEvent { data := [0, 1, 2] } Event.Return = some s1 ∧
      CatchEvent s1 (Event.Character [52]) = some s2 ∧
      CatchEvent s2 (Event.Character [49]) = some s3 ∧
      s3.edit_mode = false ∧ s3.edit_buffer = [] ∧
      s3.data = [0x41, 1, 2] ∧ s3.cursor_col = 1 ∧ s3.cursor_line = 0 :=
  let ⟨s1, s2, s3, h1, h2, h3, _, h5, h6, h7, h8, h9⟩ :=
    edit_commits_byte { data := [0, 1, 2] } 52 49 ⟨rfl, rfl⟩ (by decide) (by decide)
      (by decide) (by decide)
  ⟨s1, s2, s3, h1, h2, h3, h5, h6, h7.trans (by decide), h8.trans (by decide),
    h9.trans (by decide)⟩

/-- The Delete event outside the search window, in either edit mode. -/
theorem CatchEvent_Delete (state : HexEditorState) (hw : state.search_window_open = false) :
    CatchEvent state Event.Delete =
      if cursorPos state < state.data.length then
        some (moveBack { state with data := state.data.eraseIdx (cursorPos state) })
      else some state := by
  cases he : state.edit_mode <;> simp [CatchEvent, hw, he]

/-- The Insert event outside the search window, in either edit mode. -/
theorem CatchEvent_Insert (state : HexEditorState) (hw : state.search_window_open = false) :
    CatchEvent state Event.Insert =
      if cursorPos state < state.data.length then
        some (moveBack { state with
          data := state.data.take (cursorPos state) ++ [0] ++ state.data.drop (cursorPos state) })
      else some state := by
  cases he : state.edit_mode <;> simp [CatchEvent, hw, he]

/-- The repositioning leaves the buffer as it is. -/
theorem moveBack_data (state : HexEditorState) : (moveBack state).data = state.data := by
  simp only [moveBack]; split_ifs <;> rfl

/-- The cursor after the repositioning, case by case. -/
theorem moveBack_cursor (state : HexEditorState) :
    ((moveBack state).cursor_line, (moveBack state).cursor_col) =
      (if state.cursor_col = 15 ∧ state.cursor_line > 0 then (state.cursor_line - 1, 15)
        else if state.cursor_col > 0 then (state.cursor_line, state.cursor_col - 1)
        else if state.cursor_line > 0 then (state.cursor_line - 1, 15)
        else (state.cursor_line, state.cursor_col)) := by
  simp only [moveBack]
  split_ifs <;> simp_all

/-- Claim C14: outside the search window the Delete event at cursor offset `p` (the handler's
`pos`): if `p < length`, yields the buffer with exactly byte `p` removed (length - 1, bytes
before `p` unchanged, bytes after `p` shifted down by one) and repositions the cursor: column 15
and line > 0 -> previous line, column 15; else column > 0 -> column - 1; else line > 0 ->
previous line, column 15; else unchanged.  If `p ≥ length`, the state is unchanged. -/
theorem delete_event (state : HexEditorState) (hw : state.search_window_open = false) :
    (cursorPos state < state.data.length →
      ∃ state', CatchEvent state Event.Delete = some state' ∧
        state'.data = state.data.eraseIdx (cursorPos state) ∧
        state'.data.length = state.data.length - 1 ∧
        (∀ i, i < cursorPos state → state'.data.get? i = state.data.get? i) ∧
        (∀ i, cursorPos state ≤ i → state'.data.get? i = state.data.get? (i + 1)) ∧
        (state'.cursor_line, state'.cursor_col) =
          (if state.cursor_col = 15 ∧ state.cursor_line > 0 then (state.cursor_line - 1, 15)
            else if state.cursor_col > 0 then (state.cursor_line, state.cursor_col - 1)
            else if state.cursor_line > 0 then (state.cursor_line - 1, 15)
            else (state.cursor_line, state.cursor_col))) ∧
    (state.data.length ≤ cursorPos state → CatchEvent state Event.Delete = some state) := by
  rw [CatchEvent_Delete state hw]
  constructor
  · intro hp
    rw [if_pos hp]
    refine ⟨_, rfl, moveBack_data _, ?_, ?_, ?_, moveBack_cursor _⟩
    · rw [moveBack_data, List.length_eraseIdx, if_pos hp]
    · intro i hi
      rw [moveBack_data]
      simp [List.getElem?_eraseIdx, hi]
    · intro i hi
      rw [moveBack_data]
      have : ¬ i < cursorPos state := by omega
      simp [List.getElem?_eraseIdx, this]
  · intro hp
    rw [if_neg (by omega)]

/-- Claim C14, at offset 17 of a 20-byte buffer: byte 17 goes and the cursor moves from
column 1 to column 0 of line 1. -/
theorem delete_event_witness :
    ∃ state', CatchEvent sampleCursor Event.Delete = some state' ∧
      state'.data = (List.range 20).eraseIdx 17 ∧ state'.data.length = 19 ∧
      (state'.cursor_line, state'.cursor_col) = (1, 0) :=
  let ⟨state', h1, h2, h3, _, _, h6⟩ := (delete_event sampleCursor rfl).1 (by decide)
  ⟨state', h1, h2, h3, h6.trans (by decide)⟩

/-- Claim C15: outside the search window the Insert event at cursor offset `p` (the handler's
`pos`): if `p < length`, yields the buffer with a zero byte inserted at `p` (length + 1, bytes
before `p` unchanged, old bytes from `p` on shifted up by one) and leaves the cursor exactly
where a Delete event from the same state leaves it; if `p ≥ length`, so in particular on an
empty buffer, the state is unchanged. -/
theorem insert_event (state : HexEditorState) (hw : state.search_window_open = false) :
    (cursorPos state < state.data.length →
      ∃ state' deleted, CatchEvent state Event.Insert = some state' ∧
        CatchEvent state Event.Delete = some deleted ∧
        state'.data =
          state.data.take (cursorPos state) ++ [0] ++ state.data.drop (cursorPos state) ∧
        state'.data.length = state.data.length + 1 ∧
        (∀ i, i < cursorPos state → state'.data.get? i = state.data.get? i) ∧
        state'.data.get? (cursorPos state) = some 0 ∧
        (∀ i, cursorPos state ≤ i → state'.data.get? (i + 1) = state.data.get? i) ∧
        state'.cursor_line = deleted.cursor_line ∧ state'.cursor_col = deleted.cursor_col) ∧
    (state.data.length ≤ cursorPos state → CatchEvent state Event.Insert = some state) ∧
    (state.data = [] → CatchEvent state Event.Insert = some state) := by
  rw [CatchEvent_Insert state hw, CatchEvent_Delete state hw]
  refine ⟨?_, ?_, ?_⟩
  · intro hp
    rw [if_pos hp, if_pos hp]
    have hlen : (state.data.take (cursorPos state)).length = cursorPos state := by
      rw [List.length_take]; omega
    refine ⟨_, _, rfl, rfl, moveBack_data _, ?_, ?_, ?_, ?_, ?_, ?_⟩
    · rw [moveBack_data]
      simp only [List.length_append, List.length_take, List.length_drop, List.length_singleton]
      omega
    · intro i hi
      rw [moveBack_data]
      simp only [List.get?_eq_getElem?, List.append_assoc]
      rw [List.getElem?_append_left (by omega), List.getElem?_take_of_lt hi]
    · rw [moveBack_data]
      simp only [List.get?_eq_getElem?, List.append_assoc]
      rw [List.getElem?_append_right (by omega), hlen]
      simp
    · intro i hi
      rw [moveBack_data]
      simp only [List.get?_eq_getElem?, List.append_assoc]
      rw [List.getElem?_append_right (by omega), hlen]
      have : i + 1 - cursorPos state = (i - cursorPos state) + 1 := by omega
      rw [this]
      simp only [List.singleton_append, List.getElem?_cons_succ, List.getElem?_drop]
      congr 1
      omega
    · have h1 := congrArg Prod.fst (moveBack_cursor { state with
        data := state.data.take (cursorPos state) ++ [0] ++ state.data.drop (cursorPos state) })
      have h2 := congrArg Prod.fst (moveBack_cursor { state with
        data := state.data.eraseIdx (cursorPos state) })
      exact h1.trans h2.symm
    · have h1 := congrArg Prod.snd (moveBack_cursor { state with
        data := state.data.take (cursorPos state) ++ [0] ++ state.data.drop (cursorPos state) })
      have h2 := congrArg Prod.snd (moveBack_cursor { state with
        data := state.data.eraseIdx (cursorPos state) })
      exact h1.trans h2.symm
  · intro hp
    rw [if_neg (by omega)]
  · intro he
    rw [if_neg (by simp [he])]

/-- Claim C15, at offset 17 of a 20-byte buffer: a zero byte appears at offset 17 and the
cursor ends where Delete leaves it. -/
theorem insert_event_witness :
    ∃ state' deleted, CatchEvent sampleCursor Event.Insert = some state' ∧
      CatchEvent sampleCursor Event.Delete = some deleted ∧
      state'.data.length = 21 ∧ state'.data.get? 17 = some 0 ∧
      state'.cursor_line = deleted.cursor_line ∧ state'.cursor_col = deleted.cursor_col :=
  let ⟨state', deleted, h1, h2, _, h4, _, h6, _, h8, h9⟩ :=
    (insert_event sampleCursor rfl).1 (by decide)
  ⟨state', deleted, h1, h2, h4, h6, h8, h9⟩

/-- The repositioning leaves the search-window flag as it is. -/
theorem moveBack_window (state : HexEditorState) :
    (moveBack state).search_window_open = state.search_window_open := by
  simp only [moveBack]; split_ifs <;> rfl

/-- Removing the byte at the offset where a zero byte was inserted gives the buffer back. -/
theorem eraseIdx_inserted (data : List Nat) (k : Nat) (hk : k < data.length) :
    (data.take k ++ [0] ++ data.drop k).eraseIdx k = data := by
  have hlen : (data.take k).length = k := by rw [List.length_take]; omega
  rw [List.append_assoc, List.eraseIdx_append_of_length_le (by omega), hlen, Nat.sub_self]
  simp

/-- Claim C16: for every buffer and every offset `k < length` (the cursor offset, outside the
search window), the Insert event puts a zero byte at offset `k`, and the Delete event with the
cursor back at the same offset `k` removes the byte at `k`: the original length, and indeed
the original buffer, is restored. -/
theorem insert_then_delete (state : HexEditorState)
    (hw : state.search_window_open = false) (hk : cursorPos state < state.data.length) :
    ∃ inserted, CatchEvent state Event.Insert = some inserted ∧
      inserted.data =
        state.data.take (cursorPos state) ++ [0] ++ state.data.drop (cursorPos state) ∧
      inserted.data.length = state.data.length + 1 ∧
      ∃ deleted,
        CatchEvent { inserted with
          cursor_line := state.cursor_line, cursor_col := state.cursor_col } Event.Delete =
            some deleted ∧
        deleted.data = inserted.data.eraseIdx (cursorPos state) ∧
        deleted.data.length = state.data.length ∧ deleted.data = state.data := by
  have hins := CatchEvent_Insert state hw
  rw [if_pos hk] at hins
  have hdata : (moveBack { state with
      data := state.data.take (cursorPos state) ++ [0] ++
        state.data.drop (cursorPos state) }).data =
      state.data.take (cursorPos state) ++ [0] ++ state.data.drop (cursorPos state) :=
    moveBack_data _
  have hlen :
      (state.data.take (cursorPos state) ++ [0] ++ state.data.drop (cursorPos state)).length =
        state.data.length + 1 := by
    simp only [List.length_append, List.length_take, List.length_drop, List.length_singleton]
    omega
  refine ⟨_, hins, hdata, by rw [hdata, hlen], ?_⟩
  have hw' : ({ moveBack { state with
      data := state.data.take (cursorPos state) ++ [0] ++ state.data.drop (cursorPos state) } with
      cursor_line := state.cursor_line, cursor_col := state.cursor_col } :
        HexEditorState).search_window_open = false := by
    show (moveBack _).search_window_open = false
    rw [moveBack_window]; exact hw
  have hdel := CatchEvent_Delete _ hw'
  have hpos : cursorPos ({ moveBack { state with
      data := state.data.take (cursorPos state) ++ [0] ++ state.data.drop (cursorPos state) } with
      cursor_line := state.cursor_line, cursor_col := state.cursor_col } : HexEditorState) =
      cursorPos state := rfl
  rw [hpos] at hdel
  have hlt : cursorPos state < ({ moveBack { state with
      data := state.data.take (cursorPos state) ++ [0] ++ state.data.drop (cursorPos state) } with
      cursor_line := state.cursor_line, cursor_col := state.cursor_col } :
        HexEditorState).data.length := by
    show cursorPos state < (moveBack _).data.length
    rw [hdata, hlen]; omega
  rw [if_pos hlt] at hdel
  refine ⟨_, hdel, ?_, ?_, ?_⟩
  · rw [moveBack_data]
  · rw [moveBack_data]
    show ((moveBack _).data.eraseIdx (cursorPos state)).length = state.data.length
    rw [hdata, eraseIdx_inserted _ _ hk]
  · rw [moveBack_data]
    show (moveBack _).data.eraseIdx (cursorPos state) = state.data
    rw [hdata, eraseIdx_inserted _ _ hk]

/-- Claim C16, at offset 17 of a 20-byte buffer. -/
theorem insert_then_delete_witness :
    ∃ inserted, CatchEvent sampleCursor Event.Insert = some inserted ∧
      inserted.data.length = 21 ∧
      ∃ deleted,
        CatchEvent { inserted with cursor_line := 1, cursor_col := 1 } Event.Delete =
          some deleted ∧
        deleted.data.length = 20 ∧ deleted.data = List.range 20 :=
  let ⟨inserted, h1, _, h3, deleted, h4, _, h6, h7⟩ :=
    insert_then_delete sampleCursor rfl (by decide)
  ⟨inserted, h1, h3, deleted, h4, h6, h7⟩

/-! ## Partition staleness: properties -/

/-- The repositioning leaves the partition ranges as they are. -/
theorem moveBack_partitions (state : HexEditorState) :
    partitions (moveBack state) = partitions state := by
  simp only [moveBack]; split_ifs <;> rfl

/-- Transport of the partition ranges along an equation between returned states. -/
theorem partitions_of_some {a b c : HexEditorState} (hp : partitions a = partitions c)
    (h : some a = some b) : partitions b = partitions c := by
  rw [← Option.some.inj h]; exact hp

/-- The scan leaves the partition ranges as they are. -/
theorem scanFor_partitions {state state' : HexEditorState} {p : List Nat}
    (h : scanFor state p = some state') : partitions state' = partitions state := by
  unfold scanFor at h
  split at h
  · exact absurd h (by simp)
  · dsimp only at h
    split at h <;> (rw [← Option.some.inj h]; try rfl)

/-- The function `Search` leaves the partition ranges as they are. -/
theorem Search_partitions {state state' : HexEditorState}
    (h : Search state = some state') : partitions state' = partitions state := by
  unfold Search at h
  dsimp only at h
  split_ifs at h
  · unfold SearchHex at h
    dsimp only at h
    split_ifs at h
    · (rw [← Option.some.inj h]; try rfl)
    · exact (scanFor_partitions h).trans rfl
  · unfold SearchAscii at h
    dsimp only at h
    split_ifs at h
    · (rw [← Option.some.inj h]; try rfl)
    · exact (scanFor_partitions h).trans rfl

/-- The handler of the search window leaves the partition ranges as they are. -/
theorem searchWindowEvent_partitions {state state' : HexEditorState} {event : Event}
    (h : searchWindowEvent state event = some state') :
    partitions state' = partitions state := by
  unfold searchWindowEvent at h
  by_cases c1 : event = Event.Backspace ∧ state.search_cursor > 0
  · rw [if_pos c1] at h
    split_ifs at h
    (rw [← Option.some.inj h]; try rfl)
  rw [if_neg c1] at h
  by_cases c2 : event = Event.Delete ∧ state.search_cursor < state.search_query.length
  · rw [if_pos c2] at h; (rw [← Option.some.inj h]; try rfl)
  rw [if_neg c2] at h
  by_cases c3 : event = Event.ArrowLeft ∧ state.search_cursor > 0
  · rw [if_pos c3] at h; (rw [← Option.some.inj h]; try rfl)
  rw [if_neg c3] at h
  by_cases c4 : event = Event.ArrowRight ∧ state.search_cursor < state.search_query.length
  · rw [if_pos c4] at h; (rw [← Option.some.inj h]; try rfl)
  rw [if_neg c4] at h
  split at h
  · split_ifs at h <;> (rw [← Option.some.inj h]; try rfl)
  · cases hs : Search state with
    | none => rw [hs] at h; exact absurd h (by simp)
    | some mid =>
      rw [hs] at h
      have hm : partitions mid = partitions state := Search_partitions hs
      exact partitions_of_some (a := { mid with search_window_open := false }) hm h
  · (rw [← Option.some.inj h]; try rfl)
  · (rw [← Option.some.inj h]; try rfl)

/-- A character typed in edit mode leaves the partition ranges as they are. -/
theorem editInput_partitions (state : HexEditorState) (input : List Nat) :
    partitions (editInput state input) = partitions state := by
  unfold editInput
  split
  · rfl
  · split_ifs <;> rfl

/-- The event handler leaves the partition ranges as they are. -/
theorem CatchEvent_partitions {state state' : HexEditorState} {event : Event}
    (h : CatchEvent state event = some state') :
    partitions state' = partitions state := by
  unfold CatchEvent at h
  by_cases c0 : state.search_window_open = true
  · rw [if_pos c0] at h; exact searchWindowEvent_partitions h
  rw [if_neg c0] at h
  by_cases c1 : event = Event.ArrowUp ∧ state.cursor_line > 0
  · rw [if_pos c1] at h; (rw [← Option.some.inj h]; try rfl)
  rw [if_neg c1] at h
  by_cases c2 : event = Event.ArrowDown ∧
      state.cursor_line < (total_lines state + SIZE - 1) % SIZE
  · rw [if_pos c2] at h; (rw [← Option.some.inj h]; try rfl)
  rw [if_neg c2] at h
  by_cases c3 : event = Event.ArrowLeft ∧ state.cursor_col > 0
  · rw [if_pos c3] at h; (rw [← Option.some.inj h]; try rfl)
  rw [if_neg c3] at h
  by_cases c4 : event = Event.ArrowRight ∧ state.cursor_col < 16 - 1
  · rw [if_pos c4] at h; (rw [← Option.some.inj h]; try rfl)
  rw [if_neg c4] at h
  by_cases c5 : event = Event.Return ∧ ¬ state.edit_mode ∧ cursorPos state < state.data.length
  · rw [if_pos c5] at h; (rw [← Option.some.inj h]; try rfl)
  rw [if_neg c5] at h
  split at h
  · (rw [← Option.some.inj h]; exact editInput_partitions _ _)
  · (rw [← Option.some.inj h]; try rfl)
  · (rw [← Option.some.inj h]; try rfl)
  · (rw [← Option.some.inj h]; try rfl)
  · (rw [← Option.some.inj h]; try rfl)
  · by_cases hr : state.search_results.isEmpty = true
    · rw [if_neg (not_not.2 hr)] at h
      (rw [← Option.some.inj h]; try rfl)
    · rw [if_pos hr] at h
      dsimp only at h
      split at h
      · (rw [← Option.some.inj h]; try rfl)
      · exact absurd h (by simp)
  · by_cases hr : state.search_results.isEmpty = true
    · rw [if_neg (not_not.2 hr)] at h
      (rw [← Option.some.inj h]; try rfl)
    · rw [if_pos hr] at h
      dsimp only at h
      split at h
      · (rw [← Option.some.inj h]; try rfl)
      · exact absurd h (by simp)
  · split_ifs at h
    · (rw [← Option.some.inj h]; exact moveBack_partitions _)
    · (rw [← Option.some.inj h]; try rfl)
  · split_ifs at h
    · (rw [← Option.some.inj h]; exact moveBack_partitions _)
    · (rw [← Option.some.inj h]; try rfl)
  · (rw [← Option.some.inj h]; try rfl)

/-- Claim C17: every input event the handler returns from leaves all ten partition ranges
(MZ, DOS stub, PE, ELF, Mach-O, PNG signature/length/type/data/CRC) exactly as they were; in
particular the Delete and the Insert event at a cursor offset `< length`, which change the
buffer length by one. -/
theorem partitions_unchanged (state : HexEditorState) (event : Event) :
    (∀ state', CatchEvent state event = some state' → partitions state' = partitions state) ∧
    (state.search_window_open = false → cursorPos state < state.data.length →
      (∃ state', CatchEvent state Event.Delete = some state' ∧
        state'.data.length = state.data.length - 1 ∧ partitions state' = partitions state) ∧
      (∃ state', CatchEvent state Event.Insert = some state' ∧
        state'.data.length = state.data.length + 1 ∧ partitions state' = partitions state)) := by
  refine ⟨fun _ h => CatchEvent_partitions h, fun hw hp => ⟨?_, ?_⟩⟩
  · have h := CatchEvent_Delete state hw
    rw [if_pos hp] at h
    refine ⟨_, h, ?_, CatchEvent_partitions h⟩
    rw [moveBack_data, List.length_eraseIdx, if_pos hp]
  · have h := CatchEvent_Insert state hw
    rw [if_pos hp] at h
    refine ⟨_, h, ?_, CatchEvent_partitions h⟩
    rw [moveBack_data]
    simp only [List.length_append, List.length_take, List.length_drop, List.length_singleton]
    omega

/-- Claim C17, at the 72-byte Windows buffer after the builder has run: Delete at offset 0
shortens the buffer and keeps the ranges. -/
theorem partitions_unchanged_witness :
    ∃ loaded state', DetermineExecutablePartitions { data := sampleMZ } = some loaded ∧
      CatchEvent loaded Event.Delete = some state' ∧
      state'.data.length = 71 ∧ partitions state' = partitions loaded ∧
      loaded.pe_partition = some ⟨0x44, 71⟩ :=
  let ⟨state', h1, h2, h3⟩ :=
    ((partitions_unchanged
      { data := sampleMZ, mz_partition := some ⟨0, 0x3f⟩,
        dos_stub_partition := some ⟨0x40, 0x43⟩, pe_partition := some ⟨0x44, 71⟩ }
      Event.Delete).2 rfl (by decide)).1
  ⟨_, state', by decide, h1, h2, h3, rfl⟩

/-! ## Cursor invariant and mode dispatch: properties -/

/-- The repositioning keeps the column within `0..15`. -/
theorem moveBack_col (state : HexEditorState) (hc : state.cursor_col ≤ 15) :
    (moveBack state).cursor_col ≤ 15 := by
  simp only [moveBack]; split_ifs <;> first | exact hc | (dsimp only; omega)

/-- The scan keeps the column within `0..15`. -/
theorem scanFor_col {state state' : HexEditorState} {p : List Nat}
    (hc : state.cursor_col ≤ 15) (h : scanFor state p = some state') :
    state'.cursor_col ≤ 15 := by
  unfold scanFor at h
  split at h
  · exact absurd h (by simp)
  · dsimp only at h
    split at h <;> (rw [← Option.some.inj h]; dsimp only; omega)

/-- The function `Search` keeps the column within `0..15`. -/
theorem Search_col {state state' : HexEditorState}
    (hc : state.cursor_col ≤ 15) (h : Search state = some state') :
    state'.cursor_col ≤ 15 := by
  unfold Search at h
  dsimp only at h
  split_ifs at h
  · unfold SearchHex at h
    dsimp only at h
    split_ifs at h
    · rw [← Option.some.inj h]; exact hc
    · exact @scanFor_col { state with search_results := [] } _ _ hc h
  · unfold SearchAscii at h
    dsimp only at h
    split_ifs at h
    · rw [← Option.some.inj h]; exact hc
    · exact @scanFor_col { state with search_results := [] } _ _ hc h

/-- The handler of the search window keeps the column within `0..15`. -/
theorem searchWindowEvent_col {state state' : HexEditorState} {event : Event}
    (hc : state.cursor_col ≤ 15) (h : searchWindowEvent state event = some state') :
    state'.cursor_col ≤ 15 := by
  unfold searchWindowEvent at h
  by_cases c1 : event = Event.Backspace ∧ state.search_cursor > 0
  · rw [if_pos c1] at h
    split_ifs at h
    rw [← Option.some.inj h]; exact hc
  rw [if_neg c1] at h
  by_cases c2 : event = Event.Delete ∧ state.search_cursor < state.search_query.length
  · rw [if_pos c2] at h; rw [← Option.some.inj h]; exact hc
  rw [if_neg c2] at h
  by_cases c3 : event = Event.ArrowLeft ∧ state.search_cursor > 0
  · rw [if_pos c3] at h; rw [← Option.some.inj h]; exact hc
  rw [if_neg c3] at h
  by_cases c4 : event = Event.ArrowRight ∧ state.search_cursor < state.search_query.length
  · rw [if_pos c4] at h; rw [← Option.some.inj h]; exact hc
  rw [if_neg c4] at h
  split at h
  · split_ifs at h <;> (rw [← Option.some.inj h]; exact hc)
  · cases hs : Search state with
    | none => rw [hs] at h; exact absurd h (by simp)
    | some mid =>
      rw [hs] at h
      rw [← Option.some.inj h]
      have hm : mid.cursor_col ≤ 15 := Search_col hc hs
      exact hm
  · rw [← Option.some.inj h]; exact hc
  · rw [← Option.some.inj h]; exact hc

/-- A character typed in edit mode keeps the column within `0..15`. -/
theorem editInput_col (state : HexEditorState) (input : List Nat)
    (hc : state.cursor_col ≤ 15) : (editInput state input).cursor_col ≤ 15 := by
  unfold editInput
  split
  · exact hc
  · split_ifs
    · show (state.cursor_col + 1) % 16 ≤ 15
      omega
    · exact hc
    · exact hc

/-- The event handler keeps the column within `0..15`. -/
theorem CatchEvent_col {state state' : HexEditorState} {event : Event}
    (hc : state.cursor_col ≤ 15) (h : CatchEvent state event = some state') :
    state'.cursor_col ≤ 15 := by
  unfold CatchEvent at h
  by_cases c0 : state.search_window_open = true
  · rw [if_pos c0] at h; exact searchWindowEvent_col hc h
  rw [if_neg c0] at h
  by_cases c1 : event = Event.ArrowUp ∧ state.cursor_line > 0
  · rw [if_pos c1] at h; rw [← Option.some.inj h]; exact hc
  rw [if_neg c1] at h
  by_cases c2 : event = Event.ArrowDown ∧
      state.cursor_line < (total_lines state + SIZE - 1) % SIZE
  · rw [if_pos c2] at h; rw [← Option.some.inj h]; exact hc
  rw [if_neg c2] at h
  by_cases c3 : event = Event.ArrowLeft ∧ state.cursor_col > 0
  · rw [if_pos c3] at h; rw [← Option.some.inj h]; dsimp only; omega
  rw [if_neg c3] at h
  by_cases c4 : event = Event.ArrowRight ∧ state.cursor_col < 16 - 1
  · rw [if_pos c4] at h; rw [← Option.some.inj h]
    have := c4.2
    dsimp only; omega
  rw [if_neg c4] at h
  by_cases c5 : event = Event.Return ∧ ¬ state.edit_mode ∧ cursorPos state < state.data.length
  · rw [if_pos c5] at h; rw [← Option.some.inj h]; exact hc
  rw [if_neg c5] at h
  split at h
  · rw [← Option.some.inj h]; exact editInput_col _ _ hc
  · rw [← Option.some.inj h]; exact hc
  · rw [← Option.some.inj h]; exact hc
  · rw [← Option.some.inj h]; exact hc
  · rw [← Option.some.inj h]; exact hc
  · by_cases hr : state.search_results.isEmpty = true
    · rw [if_neg (not_not.2 hr)] at h
      rw [← Option.some.inj h]; exact hc
    · rw [if_pos hr] at h
      dsimp only at h
      split at h
      · rw [← Option.some.inj h]; dsimp only; omega
      · exact absurd h (by simp)
  · by_cases hr : state.search_results.isEmpty = true
    · rw [if_neg (not_not.2 hr)] at h
      rw [← Option.some.inj h]; exact hc
    · rw [if_pos hr] at h
      dsimp only at h
      split at h
      · rw [← Option.some.inj h]; dsimp only; omega
      · exact absurd h (by simp)
  · split_ifs at h
    · rw [← Option.some.inj h]; exact moveBack_col _ hc
    · rw [← Option.some.inj h]; exact hc
  · split_ifs at h
    · rw [← Option.some.inj h]; exact moveBack_col _ hc
    · rw [← Option.some.inj h]; exact hc
  · rw [← Option.some.inj h]; exact hc

/-- Every sequence of events keeps the column within `0..15`. -/
theorem runEvents_col : ∀ (events : List Event) (state state' : HexEditorState),
    state.cursor_col ≤ 15 → runEvents state events = some state' → state'.cursor_col ≤ 15
  | [], state, state', hc, h => by
    rw [runEvents] at h
    rw [← Option.some.inj h]; exact hc
  | event :: rest, state, state', hc, h => by
    rw [runEvents] at h
    cases hs : CatchEvent state event with
    | none => rw [hs] at h; exact absurd h (by simp)
    | some next =>
      rw [hs] at h
      exact runEvents_col rest next state' (CatchEvent_col hc hs) h

/-- Claim C18 as stated fails: on a 1-byte buffer ArrowRight from the initial cursor `(0, 0)`
leads to the Navigate state with cursor `(0, 1)`, whose offset 1 is not `< max(length, 1) = 1`. -/
theorem cursor_past_end :
    ∃ state, runEvents { data := [0x41] } [Event.ArrowRight] = some state ∧
      state.search_window_open = false ∧ state.edit_mode = false ∧
      state.cursor_line = 0 ∧ state.cursor_col = 1 ∧
      ¬ (state.cursor_line * 16 + state.cursor_col < max state.data.length 1) := by
  refine ⟨_, rfl, ?_⟩
  decide

/-- Claim C18, amended: in every state reached from the initial cursor `(0, 0)` by any sequence
of input events, the cursor column is within `0..15`, so that `line * 16 + column <
16 * (line + 1)`; the offset itself may reach or pass the length, and then, outside the search
window, Enter, Delete and Insert leave the state as it is. -/
theorem cursor_col_bounded (state state' : HexEditorState) (events : List Event)
    (h0 : state.cursor_line = 0 ∧ state.cursor_col = 0)
    (h : runEvents state events = some state') :
    state'.cursor_col ≤ 15 ∧
      state'.cursor_line * 16 + state'.cursor_col < 16 * (state'.cursor_line + 1) ∧
      (state'.search_window_open = false → state'.data.length ≤ cursorPos state' →
        CatchEvent state' Event.Return = some state' ∧
        CatchEvent state' Event.Delete = some state' ∧
        CatchEvent state' Event.Insert = some state') := by
  have hc := runEvents_col events state state' (by omega) h
  refine ⟨hc, by omega, fun hw hp => ⟨?_, ?_, ?_⟩⟩
  · have hn : ¬ cursorPos state' < state'.data.length := by omega
    cases he : state'.edit_mode <;> simp [CatchEvent, hw, he, hn]
  · rw [CatchEvent_Delete state' hw, if_neg (by omega)]
  · rw [CatchEvent_Insert state' hw, if_neg (by omega)]

/-- Claim C18, amended, at a 1-byte buffer after ArrowRight, ArrowRight, ArrowDown. -/
theorem cursor_col_bounded_witness :
    ∃ state', runEvents { data := [0x41] }
        [Event.ArrowRight, Event.ArrowRight, Event.ArrowDown] = some state' ∧
      state'.cursor_col ≤ 15 ∧
      state'.cursor_line * 16 + state'.cursor_col < 16 * (state'.cursor_line + 1) :=
  ⟨_, rfl,
    (cursor_col_bounded { data := [0x41] } _
      [Event.ArrowRight, Event.ArrowRight, Event.ArrowDown] ⟨rfl, rfl⟩ rfl).1,
    (cursor_col_bounded { data := [0x41] } _
      [Event.ArrowRight, Event.ArrowRight, Event.ArrowDown] ⟨rfl, rfl⟩ rfl).2.1⟩

/-- Claim C19 fails on the code: on the empty buffer `total_lines` is 0 and `total_lines - 1`
wraps to `2 ^ 64 - 1` in `size_t`, so ArrowDown from line 0 moves the cursor to line 1, where
the claim has `total_lines = max(1, 0) = 1` and the line staying 0. -/
theorem ArrowDown_empty_buffer :
    ∃ state, CatchEvent { data := [] } Event.ArrowDown = some state ∧
      state.data = [] ∧ state.cursor_line = 1 ∧
      max 1 ((state.data.length + 15) / 16) = 1 := by
  refine ⟨_, rfl, ?_⟩
  decide

/-- Claim C20 as stated fails: on a 1-byte buffer Enter starts the edit and Ctrl+F is then
dispatched: the search window opens while the edit flag is still set. -/
theorem edit_and_search_flags_both_set :
    ∃ state, runEvents { data := [0x41] } [Event.Return, Event.CtrlF] = some state ∧
      state.edit_mode = true ∧ state.search_window_open = true := by
  refine ⟨_, rfl, ?_⟩
  decide

/-- Claim C20, amended: while the search window is open, Ctrl+F, PageDown and PageUp change
nothing.  In edit mode (search window closed) they are dispatched as in Navigate mode: Ctrl+F
opens the search window and clears the query, its cursor and the results while the edit flag
stays set, so both flags can be set together; PageDown and PageUp do what they do in Navigate
mode, the edit flag staying set. -/
theorem mode_dispatch (state : HexEditorState) :
    (state.search_window_open = true →
      CatchEvent state Event.CtrlF = some state ∧
      CatchEvent state Event.PageDown = some state ∧
      CatchEvent state Event.PageUp = some state) ∧
    (state.search_window_open = false → state.edit_mode = true →
      CatchEvent state Event.CtrlF = some { state with
        search_window_open := true
        search_query := []
        search_cursor := 0
        search_results := [] } ∧
      CatchEvent state Event.PageDown =
        (CatchEvent { state with edit_mode := false } Event.PageDown).map
          (fun next => { next with edit_mode := true }) ∧
      CatchEvent state Event.PageUp =
        (CatchEvent { state with edit_mode := false } Event.PageUp).map
          (fun next => { next with edit_mode := true })) := by
  constructor
  · intro hw
    simp [CatchEvent, searchWindowEvent, hw]
  · intro hw he
    refine ⟨?_, ?_, ?_⟩
    · simp [CatchEvent, hw, he]
    · by_cases hr : state.search_results.isEmpty = true
      · simp [CatchEvent, hw, he, hr]
        cases state
        simp_all
      · simp [CatchEvent, hw, he, hr]
        cases state.search_results[(state.current_search_result + 1) % SIZE %
          state.search_results.length]? <;> rfl
    · by_cases hr : state.search_results.isEmpty = true
      · simp [CatchEvent, hw, he, hr]
        cases state
        simp_all
      · simp [CatchEvent, hw, he, hr]
        cases state.search_results[(state.current_search_result + SIZE - 1) % SIZE %
          state.search_results.length]? <;> rfl

/-- Claim C20, amended, at a state with three results and the search window open. -/
theorem mode_dispatch_witness :
    CatchEvent { sampleResults with search_window_open := true } Event.CtrlF =
        some { sampleResults with search_window_open := true } ∧
      CatchEvent { sampleResults with search_window_open := true } Event.PageDown =
        some { sampleResults with search_window_open := true } ∧
      CatchEvent { sampleResults with search_window_open := true } Event.PageUp =
        some { sampleResults with search_window_open := true } :=
  (mode_dispatch { sampleResults with search_window_open := true }).1 rfl

/-! ## Hex decoding of malformed groups -/

/-- Claim C21 fails on the code: `std::stoul` takes the leading hex digit of a group and
ignores what follows, so only a group with no leading digit (`ZZ`) is discarded; the group
`1G` contributes the byte `01` and the group `0x` the byte `00`.  The query `0x411G42`
is searched as `41 01 42`: in the buffer `41 01 42 41 42` it is found at offset 0, and not at
offset 3 where `41 42` stands. -/
theorem malformed_groups_decoded :
    hexQueryBytes (ascii "ZZ") = [] ∧ hexQueryBytes (ascii "1G") = [0x01] ∧
      hexQueryBytes (ascii "0x") = [0x00] ∧
      hexQueryBytes (ascii "411G42") = [0x41, 0x01, 0x42] ∧
      (Search { data := [0x41, 0x01, 0x42, 0x41, 0x42], search_query := ascii "0x411G42" }).map
        (fun state => state.search_results) = some [0] := by
  decide

/-! ## Result index: properties -/

/-- The repositioning leaves the results and the current result index as they are. -/
theorem moveBack_results (state : HexEditorState) :
    (moveBack state).search_results = state.search_results ∧
      (moveBack state).current_search_result = state.current_search_result := by
  simp only [moveBack]; split_ifs <;> exact ⟨rfl, rfl⟩

/-- A character typed in edit mode leaves the results and the current result index as they
are. -/
theorem editInput_results (state : HexEditorState) (input : List Nat) :
    (editInput state input).search_results = state.search_results ∧
      (editInput state input).current_search_result = state.current_search_result := by
  unfold editInput
  split
  · exact ⟨rfl, rfl⟩
  · split_ifs <;> exact ⟨rfl, rfl⟩

/-- After the scan the current result index is 0, below the number of results if any. -/
theorem scanFor_index {state state' : HexEditorState} {p : List Nat}
    (h : scanFor state p = some state') :
    state'.search_results ≠ [] →
      state'.current_search_result < state'.search_results.length := by
  unfold scanFor at h
  split at h
  · exact absurd h (by simp)
  · dsimp only at h
    split at h <;>
      (rw [← Option.some.inj h]; intro hne; exact List.length_pos.2 hne)

/-- After `Search` the current result index is below the number of results if any. -/
theorem Search_index {state state' : HexEditorState} (h : Search state = some state') :
    state'.search_results ≠ [] →
      state'.current_search_result < state'.search_results.length := by
  unfold Search at h
  dsimp only at h
  split_ifs at h
  · unfold SearchHex at h
    dsimp only at h
    split_ifs at h
    · rw [← Option.some.inj h]; intro hne; exact absurd rfl hne
    · exact scanFor_index h
  · unfold SearchAscii at h
    dsimp only at h
    split_ifs at h
    · rw [← Option.some.inj h]; intro hne; exact absurd rfl hne
    · exact scanFor_index h

/-- The handler of the search window keeps the current result index valid. -/
theorem searchWindowEvent_index {state state' : HexEditorState} {event : Event}
    (hi : state.search_results ≠ [] →
      state.current_search_result < state.search_results.length)
    (h : searchWindowEvent state event = some state') :
    state'.search_results ≠ [] →
      state'.current_search_result < state'.search_results.length := by
  unfold searchWindowEvent at h
  by_cases c1 : event = Event.Backspace ∧ state.search_cursor > 0
  · rw [if_pos c1] at h
    split_ifs at h
    rw [← Option.some.inj h]; exact hi
  rw [if_neg c1] at h
  by_cases c2 : event = Event.Delete ∧ state.search_cursor < state.search_query.length
  · rw [if_pos c2] at h; rw [← Option.some.inj h]; exact hi
  rw [if_neg c2] at h
  by_cases c3 : event = Event.ArrowLeft ∧ state.search_cursor > 0
  · rw [if_pos c3] at h; rw [← Option.some.inj h]; exact hi
  rw [if_neg c3] at h
  by_cases c4 : event = Event.ArrowRight ∧ state.search_cursor < state.search_query.length
  · rw [if_pos c4] at h; rw [← Option.some.inj h]; exact hi
  rw [if_neg c4] at h
  split at h
  · split_ifs at h <;> (rw [← Option.some.inj h]; exact hi)
  · cases hs : Search state with
    | none => rw [hs] at h; exact absurd h (by simp)
    | some mid =>
      rw [hs] at h
      rw [← Option.some.inj h]
      have hm : mid.search_results ≠ [] →
          mid.current_search_result < mid.search_results.length := Search_index hs
      exact hm
  · rw [← Option.some.inj h]; intro hne; exact absurd rfl hne
  · rw [← Option.some.inj h]; exact hi

/-- The event handler keeps the current result index valid. -/
theorem CatchEvent_index {state state' : HexEditorState} {event : Event}
    (hi : state.search_results ≠ [] →
      state.current_search_result < state.search_results.length)
    (h : CatchEvent state event = some state') :
    state'.search_results ≠ [] →
      state'.current_search_result < state'.search_results.length := by
  unfold CatchEvent at h
  by_cases c0 : state.search_window_open = true
  · rw [if_pos c0] at h; exact searchWindowEvent_index hi h
  rw [if_neg c0] at h
  by_cases c1 : event = Event.ArrowUp ∧ state.cursor_line > 0
  · rw [if_pos c1] at h; rw [← Option.some.inj h]; exact hi
  rw [if_neg c1] at h
  by_cases c2 : event = Event.ArrowDown ∧
      state.cursor_line < (total_lines state + SIZE - 1) % SIZE
  · rw [if_pos c2] at h; rw [← Option.some.inj h]; exact hi
  rw [if_neg c2] at h
  by_cases c3 : event = Event.ArrowLeft ∧ state.cursor_col > 0
  · rw [if_pos c3] at h; rw [← Option.some.inj h]; exact hi
  rw [if_neg c3] at h
  by_cases c4 : event = Event.ArrowRight ∧ state.cursor_col < 16 - 1
  · rw [if_pos c4] at h; rw [← Option.some.inj h]; exact hi
  rw [if_neg c4] at h
  by_cases c5 : event = Event.Return ∧ ¬ state.edit_mode ∧ cursorPos state < state.data.length
  · rw [if_pos c5] at h; rw [← Option.some.inj h]; exact hi
  rw [if_neg c5] at h
  split at h
  · rw [← Option.some.inj h, (editInput_results _ _).1, (editInput_results _ _).2]; exact hi
  · rw [← Option.some.inj h]; exact hi
  · rw [← Option.some.inj h]; exact hi
  · rw [← Option.some.inj h]; exact hi
  · rw [← Option.some.inj h]; intro hne; exact absurd rfl hne
  · by_cases hr : state.search_results.isEmpty = true
    · rw [if_neg (not_not.2 hr)] at h
      rw [← Option.some.inj h]; exact hi
    · rw [if_pos hr] at h
      dsimp only at h
      split at h
      · rw [← Option.some.inj h]
        intro hne
        exact Nat.mod_lt _ (List.length_pos.2 hne)
      · exact absurd h (by simp)
  · by_cases hr : state.search_results.isEmpty = true
    · rw [if_neg (not_not.2 hr)] at h
      rw [← Option.some.inj h]; exact hi
    · rw [if_pos hr] at h
      dsimp only at h
      split at h
      · rw [← Option.some.inj h]
        intro hne
        exact Nat.mod_lt _ (List.length_pos.2 hne)
      · exact absurd h (by simp)
  · split_ifs at h
    · rw [← Option.some.inj h, (moveBack_results _).1, (moveBack_results _).2]; exact hi
    · rw [← Option.some.inj h]; exact hi
  · split_ifs at h
    · rw [← Option.some.inj h, (moveBack_results _).1, (moveBack_results _).2]; exact hi
    · rw [← Option.some.inj h]; exact hi
  · rw [← Option.some.inj h]; exact hi

/-- Every sequence of events keeps the current result index valid. -/
theorem runEvents_index : ∀ (events : List Event) (state state' : HexEditorState),
    (state.search_results ≠ [] →
      state.current_search_result < state.search_results.length) →
    runEvents state events = some state' →
    state'.search_results ≠ [] →
      state'.current_search_result < state'.search_results.length
  | [], state, state', hi, h => by
    rw [runEvents] at h
    rw [← Option.some.inj h]; exact hi
  | event :: rest, state, state', hi, h => by
    rw [runEvents] at h
    cases hs : CatchEvent state event with
    | none => rw [hs] at h; exact absurd h (by simp)
    | some next =>
      rw [hs] at h
      exact runEvents_index rest next state' (CatchEvent_index hi hs) h

/-- The reads `state.search_results[state.current_search_result]` of PageDown and PageUp
come after the index is reduced modulo the number of results: the handler returns. -/
theorem page_returns (state : HexEditorState) :
    (CatchEvent state Event.PageDown).isSome = true ∧
      (CatchEvent state Event.PageUp).isSome = true := by
  by_cases c0 : state.search_window_open = true
  · simp [CatchEvent, searchWindowEvent, c0]
  · have hw : state.search_window_open = false := by simpa using c0
    by_cases hr : state.search_results.isEmpty = true
    · cases he : state.edit_mode <;> simp [CatchEvent, hw, he, hr]
    · have hpos : 0 < state.search_results.length :=
        List.length_pos.2 (by simpa [List.isEmpty_iff] using hr)
      have h1 := Nat.mod_lt ((state.current_search_result + 1) % SIZE) hpos
      have h2 := Nat.mod_lt ((state.current_search_result + SIZE - 1) % SIZE) hpos
      cases he : state.edit_mode <;>
        simp [CatchEvent, hw, he, hr, List.getElem?_eq_getElem h1, List.getElem?_eq_getElem h2]

/-- Claim C22: in every state reached from a state without results (as at start-up) by any
sequence of input events, whenever the result list is non-empty the current result index is
strictly less than the number of results, so that `search_results[current_search_result]`
exists; and the reads PageDown and PageUp make there are in bounds: the handler returns. -/
theorem result_index_in_bounds (state state' : HexEditorState) (events : List Event)
    (h0 : state.search_results = [])
    (h : runEvents state events = some state') :
    (state'.search_results ≠ [] →
      state'.current_search_result < state'.search_results.length ∧
      ∃ pos, state'.search_results.get? state'.current_search_result = some pos) ∧
    (CatchEvent state' Event.PageDown).isSome = true ∧
    (CatchEvent state' Event.PageUp).isSome = true := by
  have hi := runEvents_index events state state' (fun hne => absurd h0 hne) h
  refine ⟨fun hne => ⟨hi hne, ?_⟩, page_returns state'⟩
  exact ⟨_, by rw [List.get?_eq_getElem?, List.getElem?_eq_getElem (hi hne)]⟩

/-- Claim C22, after a search with three results followed by PageUp and two PageDown. -/
theorem result_index_in_bounds_witness :
    ∃ state', runEvents sampleSearch
        [Event.Return, Event.PageUp, Event.PageDown, Event.PageDown] = some state' ∧
      state'.search_results = [0, 3, 6] ∧
      state'.current_search_result < state'.search_results.length :=
  ⟨_, rfl, rfl,
    ((result_index_in_bounds sampleSearch _
      [Event.Return, Event.PageUp, Event.PageDown, Event.PageDown] rfl rfl).1
      (by decide)).1⟩

/-! ## PNG ranges: cover and overlap -/

/-- On a buffer of at least 20 bytes the PNG branch sets all five ranges. -/
theorem pngPartitions_long (mid : HexEditorState) (h20 : 20 ≤ mid.data.length)
    (h64 : mid.data.length < SIZE) :
    (pngPartitions mid).signuature_partition = some ⟨0, 7⟩ ∧
      (pngPartitions mid).length_chunk_partition = some ⟨8, 11⟩ ∧
      (pngPartitions mid).type_chunk_partition = some ⟨12, 15⟩ ∧
      (pngPartitions mid).data_chunk_partition = some ⟨16, mid.data.length - 9⟩ ∧
      (pngPartitions mid).crc_chunk_partition =
        some ⟨mid.data.length - 8, mid.data.length - 1⟩ := by
  have hl : png_header.length = 8 := rfl
  have e1 : (mid.data.length + SIZE - 8 + SIZE - 1) % SIZE = mid.data.length - 9 := by
    have : mid.data.length + SIZE - 8 + SIZE - 1 = (mid.data.length - 9) + SIZE * 2 := by omega
    rw [this, Nat.add_mul_mod_self_left]
    exact Nat.mod_eq_of_lt (by omega)
  have e2 : (mid.data.length + SIZE - 8) % SIZE = mid.data.length - 8 := by
    have : mid.data.length + SIZE - 8 = (mid.data.length - 8) + SIZE := by omega
    rw [this, Nat.add_mod_right]
    exact Nat.mod_eq_of_lt (by omega)
  have e3 : (mid.data.length + SIZE - 1) % SIZE = mid.data.length - 1 := by
    have : mid.data.length + SIZE - 1 = (mid.data.length - 1) + SIZE := by omega
    rw [this, Nat.add_mod_right]
    exact Nat.mod_eq_of_lt (by omega)
  have a1 : mid.data.length ≥ 8 + 4 := by omega
  have a2 : mid.data.length ≥ 8 + 4 + 4 := by omega
  have a3 : mid.data.length ≥ 8 + 4 + 4 + 4 := by omega
  simp only [pngPartitions, hl, a1, a2, a3, if_true, e1, e2, e3]
  simp

/-- Claim C23: for every buffer of length `≥ 20` that begins with the PNG signature, the
builder returns and the five PNG ranges (signature, length field, type field, data chunk, CRC
field), read as sets of offsets, cover exactly `0..length-1`; they are pairwise disjoint if and
only if `length ≥ 24`: for lengths 20..23 the CRC range `[length-8, length-1]` starts inside the
type field `[12, 15]` and the data range `[16, length-9]` has end < start. -/
theorem png_ranges_cover (state : HexEditorState) (h20 : 20 ≤ state.data.length)
    (h64 : state.data.length < SIZE) (hpng : state.data.take 8 = png_header) :
    ∃ state', DetermineExecutablePartitions state = some state' ∧
      (∀ pos, pos < state.data.length ↔
        (inPartition state'.signuature_partition pos = true ∨
          inPartition state'.length_chunk_partition pos = true ∨
          inPartition state'.type_chunk_partition pos = true ∨
          inPartition state'.data_chunk_partition pos = true ∨
          inPartition state'.crc_chunk_partition pos = true)) ∧
      ((∀ pos, List.Pairwise
          (fun first second =>
            ¬ (inPartition first pos = true ∧ inPartition second pos = true))
          [state'.signuature_partition, state'.length_chunk_partition,
            state'.type_chunk_partition, state'.data_chunk_partition,
            state'.crc_chunk_partition]) ↔
        24 ≤ state.data.length) ∧
      (state.data.length < 24 →
        state'.crc_chunk_partition =
          some ⟨state.data.length - 8, state.data.length - 1⟩ ∧
        state'.data_chunk_partition = some ⟨16, state.data.length - 9⟩ ∧
        inPartition state'.type_chunk_partition (state.data.length - 8) = true ∧
        state.data.length - 9 < 16) := by
  obtain ⟨mid, hd, -, -, -, -, -, hb⟩ := builder_png state (by omega)
  rw [if_pos hpng] at hb
  obtain ⟨p1, p2, p3, p4, p5⟩ := pngPartitions_long mid (by rw [hd]; exact h20)
    (by rw [hd]; exact h64)
  rw [hd] at p4 p5
  refine ⟨_, hb, ?_, ?_, ?_⟩
  · intro pos
    simp only [p1, p2, p3, p4, p5, inPartition, Bool.and_eq_true, decide_eq_true_eq]
    omega
  · simp only [p1, p2, p3, p4, p5, inPartition, List.pairwise_cons, List.mem_cons,
      List.mem_singleton, forall_eq_or_imp, forall_eq, Bool.and_eq_true, decide_eq_true_eq,
      List.not_mem_nil, List.Pairwise.nil, and_true, IsEmpty.forall_iff, implies_true]
    constructor
    · intro h
      by_contra hc
      have := (h (state.data.length - 8)).2.2.1.2
      omega
    · intro h pos
      omega
  · intro h
    refine ⟨p5, p4, ?_, by omega⟩
    simp only [p3, inPartition, Bool.and_eq_true, decide_eq_true_eq]
    omega

/-- Claim C23, at a 21-byte buffer: the CRC range is `[13, 20]`, the data range `[16, 12]`,
and offset 13 lies in the type field. -/
theorem png_ranges_cover_witness :
    ∃ state', DetermineExecutablePartitions { data := samplePNGShort } = some state' ∧
      state'.crc_chunk_partition = some ⟨13, 20⟩ ∧
      state'.data_chunk_partition = some ⟨16, 12⟩ ∧
      inPartition state'.type_chunk_partition 13 = true :=
  let ⟨state', hb, _, _, hshort⟩ :=
    png_ranges_cover { data := samplePNGShort } (by decide) (by decide) (by decide)
  ⟨state', hb, (hshort (by decide)).1, (hshort (by decide)).2.1, (hshort (by decide)).2.2.1⟩

/-! ## Cursor line: properties -/

/-- The ArrowUp event outside the search window, in either edit mode. -/
theorem CatchEvent_ArrowUp (state : HexEditorState) (hw : state.search_window_open = false) :
    CatchEvent state Event.ArrowUp =
      some (if state.cursor_line > 0 then
        { state with cursor_line := state.cursor_line - 1 } else state) := by
  by_cases h : state.cursor_line > 0 <;> cases he : state.edit_mode <;>
    simp [CatchEvent, hw, he, h]

/-- The ArrowDown event outside the search window, in either edit mode. -/
theorem CatchEvent_ArrowDown (state : HexEditorState) (hw : state.search_window_open = false) :
    CatchEvent state Event.ArrowDown =
      some (if state.cursor_line < (total_lines state + SIZE - 1) % SIZE then
        { state with cursor_line := (state.cursor_line + 1) % SIZE } else state) := by
  by_cases h : state.cursor_line < (total_lines state + SIZE - 1) % SIZE <;>
    cases he : state.edit_mode <;> simp [CatchEvent, hw, he, h]

/-- The ArrowLeft event outside the search window, in either edit mode. -/
theorem CatchEvent_ArrowLeft (state : HexEditorState) (hw : state.search_window_open = false) :
    CatchEvent state Event.ArrowLeft =
      some (if state.cursor_col > 0 then
        { state with cursor_col := state.cursor_col - 1 } else state) := by
  by_cases h : state.cursor_col > 0 <;> cases he : state.edit_mode <;>
    simp [CatchEvent, hw, he, h]

/-- The ArrowRight event outside the search window, in either edit mode. -/
theorem CatchEvent_ArrowRight (state : HexEditorState) (hw : state.search_window_open = false) :
    CatchEvent state Event.ArrowRight =
      some (if state.cursor_col < 16 - 1 then
        { state with cursor_col := state.cursor_col + 1 } else state) := by
  by_cases h : state.cursor_col < 16 - 1 <;> cases he : state.edit_mode <;>
    simp [CatchEvent, hw, he, h]

/-- The Enter event outside the search window. -/
theorem CatchEvent_Return (state : HexEditorState) (hw : state.search_window_open = false) :
    CatchEvent state Event.Return =
      some (if state.edit_mode = false ∧ cursorPos state < state.data.length then
        { state with edit_mode := true, edit_buffer := [] } else state) := by
  by_cases h : cursorPos state < state.data.length <;> cases he : state.edit_mode <;>
    simp [CatchEvent, hw, he, h]

/-- A character event outside the search window. -/
theorem CatchEvent_Character (state : HexEditorState) (input : List Nat)
    (hw : state.search_window_open = false) :
    CatchEvent state (Event.Character input) =
      some (if state.edit_mode = true then editInput state input else state) := by
  cases he : state.edit_mode <;> simp [CatchEvent, hw, he]

/-- The Escape event outside the search window. -/
theorem CatchEvent_Escape (state : HexEditorState) (hw : state.search_window_open = false) :
    CatchEvent state Event.Escape =
      some (if state.edit_mode = true then
        { state with edit_mode := false, edit_buffer := [] } else state) := by
  cases he : state.edit_mode <;> simp [CatchEvent, hw, he]

/-- On a non-empty buffer that leaves room below the `size_t` limit, `total_lines - 1` is the
index of the last line. -/
theorem lastLine_eq (state : HexEditorState) (hne : state.data ≠ [])
    (h64 : state.data.length + 16 ≤ SIZE) :
    (total_lines state + SIZE - 1) % SIZE = (state.data.length - 1) / 16 := by
  have hpos : 0 < state.data.length := List.length_pos.2 hne
  have h1 : (state.data.length + 16 - 1) % SIZE = state.data.length + 15 :=
    Nat.mod_eq_of_lt (by omega)
  have h2 : total_lines state = (state.data.length + 15) / 16 := by
    simp only [total_lines, h1]
  have h3 : total_lines state + SIZE - 1 = (state.data.length - 1) / 16 + SIZE := by
    rw [h2]; omega
  rw [h3, Nat.add_mod_right]
  exact Nat.mod_eq_of_lt (by omega)

/-- The repositioning moves the cursor offset down, unless the cursor is at `(0, 0)`. -/
theorem moveBack_offset (state : HexEditorState) (hc : state.cursor_col ≤ 15) :
    (moveBack state).cursor_line * 16 + (moveBack state).cursor_col + 1 ≤
        state.cursor_line * 16 + state.cursor_col ∨
      ((moveBack state).cursor_line = 0 ∧ (moveBack state).cursor_col = 0 ∧
        state.cursor_line = 0 ∧ state.cursor_col = 0) := by
  simp only [moveBack]
  split_ifs <;> first | (dsimp only; omega) | omega

/-- The commit of an edit keeps the invariant. -/
theorem commitEdit_inv (state : HexEditorState) (budget : Nat) (hi : CursorInv state budget) :
    CursorInv (commitEdit state) budget := by
  obtain ⟨hw, hc, h64, hl⟩ := hi
  have hlen : (commitEdit state).data.length = state.data.length := by
    simp only [commitEdit]
    split
    · split_ifs
      · exact List.length_set _ _ _
      · rfl
    · rfl
  refine ⟨hw, ?_, by rw [hlen]; exact h64, ?_⟩
  · show (state.cursor_col + 1) % 16 ≤ 15
    omega
  · intro hne
    have hne' : state.data ≠ [] := by
      intro he
      apply hne
      apply List.eq_nil_of_length_eq_zero
      rw [hlen, he]; rfl
    rw [hlen]
    have hlast := lastLine_eq state hne' (by omega)
    have hb := hl hne'
    show (if (state.cursor_col + 1) % 16 = 0 ∧
        state.cursor_line < (total_lines state + SIZE - 1) % SIZE then
        (state.cursor_line + 1) % SIZE else state.cursor_line) ≤ (state.data.length - 1) / 16
    rw [hlast]
    split_ifs with hcond
    · exact Nat.le_trans (Nat.mod_le _ _) hcond.2
    · exact hb

/-- A character typed in edit mode keeps the invariant. -/
theorem editInput_inv (state : HexEditorState) (input : List Nat) (budget : Nat)
    (hi : CursorInv state budget) : CursorInv (editInput state input) budget := by
  unfold editInput
  split
  · exact hi
  · split_ifs
    · exact commitEdit_inv _ budget hi
    · exact hi
    · exact hi

/-- One cursor event keeps the invariant, with one byte less of room, and the handler
returns. -/
theorem CatchEvent_inv (state : HexEditorState) (event : Event) (budget : Nat)
    (hi : CursorInv state (budget + 1)) (he : isCursorEvent event = true) :
    ∃ next, CatchEvent state event = some next ∧ CursorInv next budget := by
  obtain ⟨hw, hc, h64, hl⟩ := hi
  have hi0 : CursorInv state budget := ⟨hw, hc, by omega, hl⟩
  cases event with
  | ArrowUp =>
    refine ⟨_, CatchEvent_ArrowUp state hw, ?_⟩
    split_ifs
    · exact ⟨hw, hc, by show state.data.length + budget + 16 ≤ SIZE; omega,
        fun hne => Nat.le_trans (Nat.sub_le _ _) (hl hne)⟩
    · exact hi0
  | ArrowDown =>
    refine ⟨_, CatchEvent_ArrowDown state hw, ?_⟩
    split_ifs with hcond
    · refine ⟨hw, hc, by show state.data.length + budget + 16 ≤ SIZE; omega, ?_⟩
      intro hne
      have hne' : state.data ≠ [] := hne
      rw [lastLine_eq state hne' (by omega)] at hcond
      exact Nat.le_trans (Nat.mod_le _ _) hcond
    · exact hi0
  | ArrowLeft =>
    refine ⟨_, CatchEvent_ArrowLeft state hw, ?_⟩
    split_ifs
    · exact ⟨hw, Nat.le_trans (Nat.sub_le _ _) hc,
        by show state.data.length + budget + 16 ≤ SIZE; omega, hl⟩
    · exact hi0
  | ArrowRight =>
    refine ⟨_, CatchEvent_ArrowRight state hw, ?_⟩
    split_ifs with hcond
    · exact ⟨hw, by show state.cursor_col + 1 ≤ 15; omega,
        by show state.data.length + budget + 16 ≤ SIZE; omega, hl⟩
    · exact hi0
  | Return =>
    refine ⟨_, CatchEvent_Return state hw, ?_⟩
    split_ifs
    · exact ⟨hw, hc, by show state.data.length + budget + 16 ≤ SIZE; omega, hl⟩
    · exact hi0
  | Escape =>
    refine ⟨_, CatchEvent_Escape state hw, ?_⟩
    split_ifs
    · exact ⟨hw, hc, by show state.data.length + budget + 16 ≤ SIZE; omega, hl⟩
    · exact hi0
  | Character input =>
    refine ⟨_, CatchEvent_Character state input hw, ?_⟩
    split_ifs
    · exact editInput_inv state input budget hi0
    · exact hi0
  | Delete =>
    rw [CatchEvent_Delete state hw]
    by_cases hp : cursorPos state < state.data.length
    · rw [if_pos hp]
      refine ⟨_, rfl, ?_⟩
      have hne : state.data ≠ [] := by
        intro h0; rw [h0] at hp; simp at hp
      have hb := hl hne
      have hpos : cursorPos state = state.cursor_line * 16 + state.cursor_col :=
        Nat.mod_eq_of_lt (by omega)
      rw [hpos] at hp
      have hoff := moveBack_offset { state with
        data := state.data.eraseIdx (state.cursor_line * 16 + state.cursor_col) } hc
      dsimp only at hoff
      have hlen : (state.data.eraseIdx (state.cursor_line * 16 + state.cursor_col)).length =
          state.data.length - 1 := by
        rw [List.length_eraseIdx, if_pos hp]
      rw [hpos]
      refine ⟨by rw [moveBack_window]; exact hw, moveBack_col _ hc, ?_, ?_⟩
      · rw [moveBack_data]
        show (state.data.eraseIdx _).length + budget + 16 ≤ SIZE
        rw [hlen]; omega
      · rw [moveBack_data]
        intro hne'
        have hpos' : 0 < (state.data.eraseIdx
            (state.cursor_line * 16 + state.cursor_col)).length := List.length_pos.2 hne'
        show _ ≤ ((state.data.eraseIdx _).length - 1) / 16
        rw [hlen] at hpos' ⊢
        have hoff' : (moveBack { state with
            data := state.data.eraseIdx (state.cursor_line * 16 + state.cursor_col) }).cursor_line
              * 16 + (moveBack { state with
            data := state.data.eraseIdx (state.cursor_line * 16 + state.cursor_col) }).cursor_col
              + 1 ≤ state.cursor_line * 16 + state.cursor_col ∨
            (moveBack { state with
              data := state.data.eraseIdx
                (state.cursor_line * 16 + state.cursor_col) }).cursor_line = 0 := by
          rcases hoff with h | h
          · exact Or.inl h
          · exact Or.inr h.1
        omega
    · rw [if_neg hp]
      exact ⟨_, rfl, hi0⟩
  | Insert =>
    rw [CatchEvent_Insert state hw]
    by_cases hp : cursorPos state < state.data.length
    · rw [if_pos hp]
      refine ⟨_, rfl, ?_⟩
      have hne : state.data ≠ [] := by
        intro h0; rw [h0] at hp; simp at hp
      have hb := hl hne
      have hpos : cursorPos state = state.cursor_line * 16 + state.cursor_col :=
        Nat.mod_eq_of_lt (by omega)
      rw [hpos] at hp
      have hoff := moveBack_offset { state with
        data := state.data.take (state.cursor_line * 16 + state.cursor_col) ++ [0] ++
          state.data.drop (state.cursor_line * 16 + state.cursor_col) } hc
      dsimp only at hoff
      have hlen : (state.data.take (state.cursor_line * 16 + state.cursor_col) ++ [0] ++
          state.data.drop (state.cursor_line * 16 + state.cursor_col)).length =
          state.data.length + 1 := by
        simp only [List.length_append, List.length_take, List.length_drop,
          List.length_singleton]
        omega
      rw [hpos]
      refine ⟨by rw [moveBack_window]; exact hw, moveBack_col _ hc, ?_, ?_⟩
      · rw [moveBack_data]
        show (_ ++ [0] ++ _ : List Nat).length + budget + 16 ≤ SIZE
        rw [hlen]; omega
      · rw [moveBack_data]
        intro _
        show _ ≤ ((_ ++ [0] ++ _ : List Nat).length - 1) / 16
        rw [hlen]
        have hoff' : (moveBack { state with
            data := state.data.take (state.cursor_line * 16 + state.cursor_col) ++ [0] ++
              state.data.drop (state.cursor_line * 16 + state.cursor_col) }).cursor_line
              * 16 ≤ state.cursor_line * 16 + state.cursor_col := by
          rcases hoff with h | h
          · omega
          · rw [h.1]; omega
        omega
    · rw [if_neg hp]
      exact ⟨_, rfl, hi0⟩
  | Backspace => exact absurd he (by decide)
  | CtrlS => exact absurd he (by decide)
  | CtrlQ => exact absurd he (by decide)
  | CtrlF => exact absurd he (by decide)
  | PageDown => exact absurd he (by decide)
  | PageUp => exact absurd he (by decide)
  | Other => exact absurd he (by decide)

/-- Every sequence of cursor events keeps the invariant, and the handler returns on each. -/
theorem runEvents_inv : ∀ (events : List Event) (state : HexEditorState),
    CursorInv state events.length → (∀ event ∈ events, isCursorEvent event = true) →
    ∃ state', runEvents state events = some state' ∧ CursorInv state' 0
  | [], state, hi, _ => ⟨state, rfl, hi⟩
  | event :: rest, state, hi, hev => by
    obtain ⟨next, hnext, hinext⟩ :=
      CatchEvent_inv state event rest.length hi (hev event (List.mem_cons_self _ _))
    obtain ⟨state', hrun, hfinal⟩ :=
      runEvents_inv rest next hinext (fun e he => hev e (List.mem_cons_of_mem _ he))
    exact ⟨state', by rw [runEvents, hnext]; exact hrun, hfinal⟩

/-- Claim C24: starting from cursor `(0, 0)` with the search window closed, every sequence of
arrow, Enter, character, Escape, Delete and Insert events is handled, and after each of them
(after the first `n`, for every `n`) the column is within `0..15` and, whenever the buffer is
non-empty, the cursor line is `≤ (length - 1) / 16`, also as Delete shrinks the buffer.  The
buffer and the number of events stay below the `size_t` limit. -/
theorem cursor_stays_on_grid (state : HexEditorState) (events : List Event) (n : Nat)
    (h0 : state.cursor_line = 0 ∧ state.cursor_col = 0)
    (hw : state.search_window_open = false)
    (hev : ∀ event ∈ events, isCursorEvent event = true)
    (h64 : state.data.length + events.length + 16 ≤ SIZE) :
    ∃ state', runEvents state (events.take n) = some state' ∧
      state'.cursor_col ≤ 15 ∧
      (state'.data ≠ [] → state'.cursor_line ≤ (state'.data.length - 1) / 16) := by
  have hlen : (events.take n).length ≤ events.length := by
    rw [List.length_take]; exact Nat.min_le_right _ _
  have hi : CursorInv state (events.take n).length :=
    ⟨hw, by omega, by omega, fun _ => by omega⟩
  obtain ⟨state', hrun, -, hc, -, hl⟩ :=
    runEvents_inv (events.take n) state hi (fun e he => hev e (List.mem_of_mem_take he))
  exact ⟨state', hrun, hc, hl⟩

/-- Claim C24, at a 17-byte buffer: ArrowDown reaches the second line, Delete removes its only
byte and the cursor is back on the first line, where the next ArrowDown leaves it. -/
theorem cursor_stays_on_grid_witness :
    ∃ state', runEvents { data := List.range 17 }
        [Event.ArrowDown, Event.Delete, Event.ArrowDown] = some state' ∧
      state'.cursor_col ≤ 15 ∧
      (state'.data ≠ [] → state'.cursor_line ≤ (state'.data.length - 1) / 16) :=
  cursor_stays_on_grid { data := List.range 17 }
    [Event.ArrowDown, Event.Delete, Event.ArrowDown] 3 ⟨rfl, rfl⟩ rfl (by decide) (by decide)

end Hex
